import Mathlib

/-!
# ExOT Android application: native lifecycle layer

A shallow embedding of the lifecycle code of `exot::jni::Manager`
(`libnative/src/main/cpp/include/exot/jni/manager.h`) and of
`exot::jni::Wrapper` (`libnative/src/main/cpp/include/exot/jni/wrapper.h`),
and of the older `Manager` and JNI functions of `thermalsc_ui`.

* Stateful C++ members become explicit fields of a record, and each member
  function becomes a pure function returning the updated record.
* The shared pointer `state_` of a `Manager` aliases the process-wide
  `GLOBAL_STATE`; only one manager is alive at a time, so the pointee is kept
  as the field `state_` of the record.
* `clock_t::now()` is an input: functions that read the clock take the
  current time point (nanoseconds, an integer) as an argument.  Time points
  and durations are unbounded integers: the 64-bit counts of `std::chrono`
  do not overflow for clock values within 292 years of the epoch.
* Every call on the global state, on the executor and on the logging
  registry is also appended to a ghost `trace`, together with the global
  state right after the call, so that the order of effects can be stated.
-/

namespace exot

/-! ## The global state (`exot::framework::State`) -/

/-- Modelled from the spec: the global state (`exot/framework/state.h` is not
among the sources), as the three flags a `Manager` reads through
`is_started()`, `is_stopped()` and `is_terminated()`. -/
structure State where
  started : Bool
  stopped : Bool
  terminated : Bool
deriving DecidableEq

/-- The four logical phases of the global state. -/
inductive Phase where
  | Idle
  | Started
  | Stopped
  | Terminated
deriving DecidableEq

namespace State

/-- Modelled from the spec: `State::is_started` reads the started flag
(`exot/framework/state.h` is not among the sources). -/
def is_started (s : State) : Bool := s.started

/-- Modelled from the spec: `State::is_stopped` reads the stopped flag
(`exot/framework/state.h` is not among the sources). -/
def is_stopped (s : State) : Bool := s.stopped

/-- Modelled from the spec: `State::is_terminated` reads the terminated flag
(`exot/framework/state.h` is not among the sources). -/
def is_terminated (s : State) : Bool := s.terminated

/-- Modelled from the spec: the flag values of a state that is exactly in the
given phase (`exot/framework/state.h` is not among the sources).  A fresh
`Idle` instance has no flag set; in each other phase only the flag of that
phase is set. -/
def ofPhase : Phase → State
  | .Idle => { started := false, stopped := false, terminated := false }
  | .Started => { started := true, stopped := false, terminated := false }
  | .Stopped => { started := false, stopped := true, terminated := false }
  | .Terminated => { started := false, stopped := false, terminated := true }

/-- Modelled from the spec: the phase of a state with arbitrary flags
(`exot/framework/state.h` is not among the sources), read in the priority
order terminal first, then stopped, then started, else idle. -/
def phase (s : State) : Phase :=
  if s.terminated then .Terminated
  else if s.stopped then .Stopped
  else if s.started then .Started
  else .Idle

/-- Modelled from the spec: `State::start` (`exot/framework/state.h` is not
among the sources).  The valid transition is `Idle → Started`; a transition
is only valid from its source phase, and any transition attempted from
`Terminated` is a no-op. -/
def start (s : State) : State :=
  match s.phase with
  | .Idle => ofPhase .Started
  | _ => s

/-- Modelled from the spec: `State::stop` (`exot/framework/state.h` is not
among the sources).  The valid transition is `Started → Stopped`. -/
def stop (s : State) : State :=
  match s.phase with
  | .Started => ofPhase .Stopped
  | _ => s

/-- Modelled from the spec: `State::terminate` (`exot/framework/state.h` is
not among the sources).  `{Idle, Started, Stopped} → Terminated`, always
legal, always terminal. -/
def terminate (s : State) : State :=
  match s.phase with
  | .Terminated => s
  | _ => ofPhase .Terminated

/-- Modelled from the spec: `State::reset` (`exot/framework/state.h` is not
among the sources).  The container is reset to a fresh `Idle` instance. -/
def reset (_s : State) : State := ofPhase .Idle

end State

/-! ## The executor (`exot::framework::ThreadExecutor`) -/

/-- Modelled from the spec: the executor (`exot/framework/executor.h` is not
among the sources) owns the workers of the spawned components; `threads`
lists the component indices whose worker has been spawned and not yet
joined. -/
structure ThreadExecutor where
  threads : List Nat
deriving DecidableEq

/-- Modelled from the spec: `ThreadExecutor::spawn` adds a worker for the
component with the given tuple index. -/
def ThreadExecutor.spawn (e : ThreadExecutor) (i : Nat) : ThreadExecutor :=
  { threads := e.threads ++ [i] }

/-- Modelled from the spec: `ThreadExecutor::join` is a blocking join of all
workers; afterwards no worker is left to join. -/
def ThreadExecutor.join (_e : ThreadExecutor) : ThreadExecutor :=
  { threads := [] }

/-! ## Configuration documents (`nlohmann::json`) -/

/-- A JSON value.  An object (a `std::map` in the library) is kept as the list
of its entries; numbers are integers. -/
inductive Json where
  | null
  | bool (b : Bool)
  | num (n : Int)
  | str (s : String)
  | arr (xs : List Json)
  | obj (kvs : List (String × Json))

mutual
/-- Decision procedure for equality of JSON values. -/
def Json.decEq (a b : Json) : Decidable (a = b) :=
  match a, b with
  | .null, .null => isTrue rfl
  | .bool x, .bool y =>
    if h : x = y then isTrue (by rw [h])
    else isFalse (by intro h1; injection h1; contradiction)
  | .num x, .num y =>
    if h : x = y then isTrue (by rw [h])
    else isFalse (by intro h1; injection h1; contradiction)
  | .str x, .str y =>
    if h : x = y then isTrue (by rw [h])
    else isFalse (by intro h1; injection h1; contradiction)
  | .arr xs, .arr ys =>
    match Json.decEqList xs ys with
    | isTrue h => isTrue (by rw [h])
    | isFalse h => isFalse (by intro h1; injection h1; contradiction)
  | .obj xs, .obj ys =>
    match Json.decEqMembers xs ys with
    | isTrue h => isTrue (by rw [h])
    | isFalse h => isFalse (by intro h1; injection h1; contradiction)
  | .null, .bool _ | .null, .num _ | .null, .str _ | .null, .arr _ | .null, .obj _
  | .bool _, .null | .bool _, .num _ | .bool _, .str _ | .bool _, .arr _ | .bool _, .obj _
  | .num _, .null | .num _, .bool _ | .num _, .str _ | .num _, .arr _ | .num _, .obj _
  | .str _, .null | .str _, .bool _ | .str _, .num _ | .str _, .arr _ | .str _, .obj _
  | .arr _, .null | .arr _, .bool _ | .arr _, .num _ | .arr _, .str _ | .arr _, .obj _
  | .obj _, .null | .obj _, .bool _ | .obj _, .num _ | .obj _, .str _ | .obj _, .arr _ =>
    isFalse (by intro h; cases h)
/-- Decision procedure for equality of lists of JSON values. -/
def Json.decEqList (a b : List Json) : Decidable (a = b) :=
  match a, b with
  | [], [] => isTrue rfl
  | [], _ :: _ => isFalse (by intro h; cases h)
  | _ :: _, [] => isFalse (by intro h; cases h)
  | x :: xs, y :: ys =>
    match Json.decEq x y, Json.decEqList xs ys with
    | isTrue h1, isTrue h2 => isTrue (by rw [h1, h2])
    | isFalse h1, _ => isFalse (by intro h; injection h; contradiction)
    | _, isFalse h2 => isFalse (by intro h; injection h; contradiction)
/-- Decision procedure for equality of lists of object entries. -/
def Json.decEqMembers (a b : List (String × Json)) : Decidable (a = b) :=
  match a, b with
  | [], [] => isTrue rfl
  | [], _ :: _ => isFalse (by intro h; cases h)
  | _ :: _, [] => isFalse (by intro h; cases h)
  | (k, x) :: xs, (l, y) :: ys =>
    if hk : k = l then
      match Json.decEq x y, Json.decEqMembers xs ys with
      | isTrue h1, isTrue h2 => isTrue (by rw [hk, h1, h2])
      | isFalse h1, _ =>
        isFalse (by intro h; injection h with h3 h4; injection h3; contradiction)
      | _, isFalse h2 => isFalse (by intro h; injection h; contradiction)
    else isFalse (by intro h; injection h with h3 h4; injection h3; contradiction)
end

instance : DecidableEq Json := Json.decEq

namespace Json

/-- The function `basic_json::is_object`. -/
def is_object : Json → Bool
  | .obj _ => true
  | _ => false

/-- Lookup of a key among the entries of an object (`std::map::find`). -/
def lookup (k : String) : List (String × Json) → Option Json
  | [] => none
  | (k1, v1) :: rest => if k1 = k then some v1 else lookup k rest

/-- The entries of an object after `object[k] = v`: the value of an existing
key is overwritten, a new key is added. -/
def assign (k : String) (v : Json) : List (String × Json) → List (String × Json)
  | [] => [(k, v)]
  | (k1, v1) :: rest =>
    if k1 = k then (k, v) :: rest else (k1, v1) :: assign k v rest

/-- The test `basic_json::find(key) != end()`: only an object can hold a
key. -/
def contains (j : Json) (k : String) : Bool :=
  match j with
  | .obj kvs => (lookup k kvs).isSome
  | _ => false

end Json

/-- What a callee of the constructor can throw.  The handlers of
`Wrapper::create` distinguish `spdlog::spdlog_ex`, any other class derived
from `std::exception`, and everything else. -/
inductive Exception where
  | spdlog_ex
  | std_exception
  | other
deriving DecidableEq

/-- The five host handles passed to the constructor: four pointers
reinterpreted as `std::uintptr_t` and the JNI version (an `int`). -/
structure Handles where
  java_vm_ptr : Nat
  java_instance_ptr : Nat
  java_class_ptr : Nat
  java_method_id_ptr : Nat
  jni_version : Int
deriving DecidableEq

/-- The collaborators of the `Manager` constructor that are not among the
sources: the JSON parser, the parameter pack `Components...` of the class
template, the settings configuration and the component constructors.
`configure` and `construct I` return the exception they throw on the given
configuration, if any. -/
structure Environment where
  parse : String → Except Exception Json
  sizeof_Components : Nat
  configure : Json → Option Exception
  construct : Nat → Json → Option Exception

/-! ## The ghost trace -/

/-- The calls a `Manager` makes on its collaborators. -/
inductive Op where
  | flush_all
  | state_start
  | state_stop
  | state_terminate
  | state_reset
  | executor_join
  | configure
  | init_global_state_handlers
  | construct (I : Nat)
  | connect (I J : Nat)
  | spawn (I : Nat)
deriving DecidableEq

/-- One entry of the ghost trace: the call and the global state right after
it. -/
structure Step where
  op : Op
  after : State
deriving DecidableEq

/-! ## `exot::jni::Manager` -/

/-- The data members of `Manager` (the settings and component tuples are
represented by the trace of their construction), and the ghost trace. -/
structure Manager where
  state_ : State
  json_object_ : Json
  started_at_ : Int
  executor_ : ThreadExecutor
  trace : List Step
deriving DecidableEq

namespace Manager

/-- The call `spdlog::details::registry::instance().flush_all()`. -/
def flush_all (m : Manager) : Manager :=
  { m with trace := m.trace ++ [⟨.flush_all, m.state_⟩] }

/-- The call `state_->start()`. -/
def state_start (m : Manager) : Manager :=
  { m with state_ := m.state_.start,
           trace := m.trace ++ [⟨.state_start, m.state_.start⟩] }

/-- The call `state_->stop()`. -/
def state_stop (m : Manager) : Manager :=
  { m with state_ := m.state_.stop,
           trace := m.trace ++ [⟨.state_stop, m.state_.stop⟩] }

/-- The call `state_->terminate()`. -/
def state_terminate (m : Manager) : Manager :=
  { m with state_ := m.state_.terminate,
           trace := m.trace ++ [⟨.state_terminate, m.state_.terminate⟩] }

/-- The call `state_->reset()`. -/
def state_reset (m : Manager) : Manager :=
  { m with state_ := m.state_.reset,
           trace := m.trace ++ [⟨.state_reset, m.state_.reset⟩] }

/-- The call `executor_.join()`. -/
def executor_join (m : Manager) : Manager :=
  { m with executor_ := m.executor_.join,
           trace := m.trace ++ [⟨.executor_join, m.state_⟩] }

/-- The function `Manager::is_started`. -/
def is_started (m : Manager) : Bool := m.state_.is_started

/-- The function `Manager::is_stopped`. -/
def is_stopped (m : Manager) : Bool := m.state_.is_stopped

/-- The function `Manager::is_terminated`. -/
def is_terminated (m : Manager) : Bool := m.state_.is_terminated

/-- The function `Manager::start`: flush, start the state, record
`clock_t::now()`. -/
def start (m : Manager) (now : Int) : Manager :=
  let m := m.flush_all
  let m := m.state_start
  { m with started_at_ := now }

/-- The function `Manager::stop`. -/
def stop (m : Manager) : Manager :=
  let m := m.flush_all
  if m.is_started then
    m.state_stop
  else if !m.is_stopped || !m.is_terminated then
    let m := m.state_start
    m.state_stop
  else
    m

/-- The function `Manager::terminate`. -/
def terminate (m : Manager) : Manager :=
  let m := m.flush_all
  let m := m.stop
  let m := m.state_terminate
  let m := m.executor_join
  m.state_reset

/-- The function `Manager::query_state`. -/
def query_state (m : Manager) : String :=
  if m.is_terminated then "terminated"
  else if m.is_stopped then "stopped"
  else if m.is_started then "started"
  else "idle"

/-- The function `Manager::get_running_time` at clock value `now`. -/
def get_running_time (m : Manager) (now : Int) : Int :=
  if m.is_started then now - m.started_at_ else 0

/-! ### Construction -/

/-- Appends a call that leaves the global state unchanged to the ghost
trace. -/
def log (m : Manager) (op : Op) : Manager :=
  { m with trace := m.trace ++ [⟨op, m.state_⟩] }

/-- The object `{{"jvm", ...}, {"jinstance", ...}, {"jclazz", ...},
{"jmid", ...}, {"jniversion", ...}}` of the constructor. -/
def handle_fields (h : Handles) : List (String × Json) :=
  [("jvm", .num h.java_vm_ptr), ("jinstance", .num h.java_instance_ptr),
   ("jclazz", .num h.java_class_ptr), ("jmid", .num h.java_method_id_ptr),
   ("jniversion", .num h.jni_version)]

/-- Body of the first loop of the constructor for one `value`: a value that
is an object gets the five fields assigned, any other value is skipped. -/
def add_handles (h : Handles) (value : Json) : Json :=
  match value with
  | .obj kvs =>
    .obj (Json.assign "jniversion" (.num h.jni_version)
      (Json.assign "jmid" (.num h.java_method_id_ptr)
        (Json.assign "jclazz" (.num h.java_class_ptr)
          (Json.assign "jinstance" (.num h.java_instance_ptr)
            (Json.assign "jvm" (.num h.java_vm_ptr) kvs)))))
  | v => v

/-- The first loop of the constructor, over `json_object_.items()`: the
entries of an object, the elements of an array; a scalar is visited as its
own single item and `null` has no item. -/
def inject_handles (h : Handles) (json_object_ : Json) : Json :=
  match json_object_ with
  | .obj kvs => .obj (kvs.map fun kv => (kv.1, add_handles h kv.2))
  | .arr xs => .arr (xs.map (add_handles h))
  | j => j

/-- The list `{"process_android"s}` of the second loop. -/
def android_modules : List String := ["process_android"]

/-- Body of the second loop of the constructor.  `json_object_[key] = ...`
turns `null` into an object and throws a `type_error` (derived from
`std::exception`) on an array or a scalar. -/
def ensure_android_module (h : Handles) (json_object_ : Json)
    (android_module : String) : Except Exception Json :=
  if json_object_.contains android_module then
    .ok json_object_
  else
    match json_object_ with
    | .null => .ok (.obj [(android_module, .obj (handle_fields h))])
    | .obj kvs =>
      .ok (.obj (Json.assign android_module (.obj (handle_fields h)) kvs))
    | _ => .error .std_exception

/-- The two loops of the constructor on the parsed document. -/
def preprocess (h : Handles) (json_object_ : Json) : Except Exception Json :=
  android_modules.foldlM (ensure_android_module h) (inject_handles h json_object_)

/-- The loop of `Manager::create` that builds the components at the given
tuple indices in order; it ends at the first constructor that throws. -/
def construct_components (env : Environment) (config : Json) :
    List Nat → Manager → Manager × Option Exception
  | [], m => (m, none)
  | I :: rest, m =>
    match env.construct I config with
    | some e => (m, some e)
    | none => construct_components env config rest (m.log (.construct I))

/-- The loop of `Manager::create` that connects component `I` to component
`I + 1` for the given indices `I`. -/
def connect_components : List Nat → Manager → Manager
  | [], m => m
  | I :: rest, m => connect_components rest (m.log (.connect I (I + 1)))

/-- Spawning of the components at the given tuple indices on the executor. -/
def spawn_components : List Nat → Manager → Manager
  | [], m => m
  | I :: rest, m =>
    spawn_components rest
      ({ m with executor_ := m.executor_.spawn I }.log (.spawn I))

/-- The function `Manager::create`: the object after the call and the
exception thrown, if any.  The component tuple has the indices
`0 .. sizeof...(Components)`, index `0` being `exot::utilities::Logging`.
The helper `const_for<Begin, End>` (`exot/utilities`, not among the sources)
is taken as the spec has it: the body runs for `I = Begin, ..., End - 1` in
increasing order. -/
def create (env : Environment) (m : Manager) (config : Json) :
    Manager × Option Exception :=
  match env.configure config with
  | some e => (m, some e)
  | none =>
    let m := m.log .configure
    let m := m.log .init_global_state_handlers
    match construct_components env config
        (List.range (env.sizeof_Components + 1)) m with
    | (m, some e) => (m, some e)
    | (m, none) =>
      let m :=
        if env.sizeof_Components > 1 then
          connect_components (List.range' 1 (env.sizeof_Components - 1)) m
        else m
      (spawn_components (List.range' 1 env.sizeof_Components) m, none)

/-- The constructor `Manager::Manager` on the global state `GLOBAL_STATE`:
the object built and the exception thrown, if any (the object is then never
handed to the caller and only tells how far construction went). -/
def new (env : Environment) (GLOBAL_STATE : State) (json_string : String)
    (h : Handles) : Manager × Option Exception :=
  let m : Manager :=
    { state_ := GLOBAL_STATE, json_object_ := .null, started_at_ := 0,
      executor_ := { threads := [] }, trace := [] }
  match env.parse json_string with
  | .error e => (m, some e)
  | .ok j =>
    match preprocess h j with
    | .error e => ({ m with json_object_ := inject_handles h j }, some e)
    | .ok config => create env { m with json_object_ := config } config

/-- The destructor `Manager::~Manager`. -/
def destructor (m : Manager) : Manager := m.terminate

end Manager

/-! ## `exot::jni::Wrapper` -/

/-- The single slot of a `Wrapper`: `manager_ptr_` is `none` for `nullptr`. -/
structure Wrapper where
  manager_ptr_ : Option Manager
deriving DecidableEq

namespace Wrapper

/-- The function `Wrapper::start` at clock value `now`; the result is the
returned flag and the wrapper after the call. -/
def start (w : Wrapper) (now : Int) : Bool × Wrapper :=
  match w.manager_ptr_ with
  | some m =>
    if !m.is_started then
      (true, { manager_ptr_ := some (m.start now) })
    else
      (false, w)
  | none => (false, w)

/-- The function `Wrapper::stop`. -/
def stop (w : Wrapper) : Bool × Wrapper :=
  match w.manager_ptr_ with
  | some m =>
    if m.is_started then
      (true, { manager_ptr_ := some m.stop })
    else
      (false, w)
  | none => (false, w)

/-- The function `Wrapper::terminate`. -/
def terminate (w : Wrapper) : Bool × Wrapper :=
  match w.manager_ptr_ with
  | some m => (true, { manager_ptr_ := some m.terminate })
  | none => (false, w)

/-- The function `Wrapper::is_started`. -/
def is_started (w : Wrapper) : Bool :=
  match w.manager_ptr_ with
  | some m => m.is_started
  | none => false

/-- The function `Wrapper::exists`. -/
def «exists» (w : Wrapper) : Bool := w.manager_ptr_.isSome

/-- The function `Wrapper::query_state`. -/
def query_state (w : Wrapper) : String :=
  match w.manager_ptr_ with
  | some m => m.query_state
  | none => "missing"

/-- The function `Wrapper::create` on the global state `GLOBAL_STATE`.  An
exception that neither handler catches leaves the function. -/
def create (env : Environment) (GLOBAL_STATE : State) (w : Wrapper)
    (config : String) (h : Handles) : Except Exception (Bool × Wrapper) :=
  match w.manager_ptr_ with
  | none =>
    match Manager.new env GLOBAL_STATE config h with
    | (_, some .spdlog_ex) => .ok (false, w)
    | (_, some .std_exception) => .ok (false, w)
    | (_, some .other) => .error .other
    | (m, none) =>
      let w1 : Wrapper := { manager_ptr_ := some m }
      if w1.manager_ptr_.isNone then .ok (false, w1) else .ok (true, w1)
  | some _ => .ok (false, w)

/-- The function `Wrapper::destroy` (the two `sleep_for` calls have no effect
on the data).  The third component is ghost: the manager released by
`manager_ptr_ = nullptr`, after its destructor has run. -/
def destroy (w : Wrapper) : Bool × Wrapper × Option Manager :=
  match w.manager_ptr_ with
  | some m =>
    let m := m.terminate
    (true, { manager_ptr_ := none }, some m.destructor)
  | none => (false, w, none)

/-- The format `{:0>2}` applied to the decimal text of a count: padded on
the left with `'0'` to a width of two. -/
def fill2 (s : String) : String :=
  String.mk (List.replicate (2 - s.length) '0') ++ s

/-- The function `Wrapper::get_running_time` at clock value `now`.  The casts
of `std::chrono` truncate toward zero and `%` is the C++ remainder. -/
def get_running_time (w : Wrapper) (now : Int) : String :=
  match w.manager_ptr_ with
  | some m =>
    if m.is_started then
      let ret := m.get_running_time now
      let hrs := ret.tdiv 3600000000000
      let mins := (ret.tmod 3600000000000).tdiv 60000000000
      let secs := (ret.tmod 60000000000).tdiv 1000000000
      fill2 (toString hrs) ++ ":" ++ fill2 (toString mins) ++ ":"
        ++ fill2 (toString secs) ++ "."
    else "N/A"
  | none => "N/A"

end Wrapper

/-! ## Sequences of lifecycle calls -/

/-- One lifecycle call on a manager; `start` carries the clock value it
reads. -/
inductive Call where
  | start (now : Int)
  | stop
  | terminate
deriving DecidableEq

/-- The manager after one call. -/
def Manager.call (m : Manager) : Call → Manager
  | .start now => m.start now
  | .stop => m.stop
  | .terminate => m.terminate

/-- The manager after a sequence of calls, first call first. -/
def Manager.calls (m : Manager) : List Call → Manager
  | [] => m
  | c :: cs => (m.call c).calls cs

/-- The clock value read by the most recent `start` of a sequence of calls,
if the sequence has one. -/
def Call.last_start : List Call → Option Int
  | [] => none
  | .start t :: cs => some ((Call.last_start cs).getD t)
  | .stop :: cs => Call.last_start cs
  | .terminate :: cs => Call.last_start cs

/-! ## Pipeline links -/

/-- The link a call establishes: `connect I J` links the component at tuple
index `I` to the one at index `J`; no other call makes a link. -/
def Op.link : Op → Option (Nat × Nat)
  | .connect I J => some (I, J)
  | _ => none

/-- The links established so far, in the order of the trace. -/
def Manager.links (m : Manager) : List (Nat × Nat) :=
  (m.trace.map Step.op).filterMap Op.link

/-! ## The legacy layer (`thermalsc_ui`)

The class `Manager` of `thermalsc_ui/src/main/cpp/include/Manager.h` and the
JNI functions of `thermalsc_ui/src/main/cpp/jni_thermal-sc.cpp`.  The global
pointer `gManagerObject` and the global state that every manager shares are
the two fields of a `Process`; a member function that calls the state takes
it and returns it. -/

namespace thermalsc_ui

/-- The value of a 32-bit `int` after an overflow that wraps around modulo
`2^32`. -/
def wrap_int (x : Int) : Int := (x + 2147483648) % 4294967296 - 2147483648

/-- Multiplication of two values of type `int`. -/
def int_mul (a b : Int) : Int := wrap_int (a * b)

/-- The data members of the legacy `Manager` that its functions use; `log_`
and `meter_` tell whether the pointer of that name holds an object. -/
structure Manager where
  startFlag : Bool
  initFlag : Bool
  timeStarted_ : Int
  rotating_logs_size : Int
  debug_log_filename : String
  app_log_filename : String
  exec_ : ThreadExecutor
  log_ : Bool
  meter_ : Bool
deriving DecidableEq

/-- The collaborators of the legacy layer that are not among the sources, by
the exception they throw, if any: the construction of the members of a
`Manager` for a path and a uuid, the constructor of
`covert::utilities::Logging` for a debug log file name, and the constructor
of the meter. -/
structure Collaborators where
  Manager_throws : String → String → Option Exception
  Logging_throws : String → Option Exception
  meter_throws : Option Exception

/-- The two globals of the legacy layer. -/
structure Process where
  GLOBAL_STATE : State
  gManagerObject : Option Manager
deriving DecidableEq

namespace Manager

/-- The constructor `Manager::Manager(path, uuid, ...)`, when it does not
throw.  The literals of `1024*1024*1024*10` have type `int`. -/
def new (path uuid : String) : Manager :=
  { startFlag := false, initFlag := false, timeStarted_ := 0,
    rotating_logs_size := int_mul (int_mul (int_mul 1024 1024) 1024) 10,
    debug_log_filename := path ++ "/debug_" ++ uuid ++ ".txt",
    app_log_filename := path ++ "/log_" ++ uuid ++ ".csv",
    exec_ := { threads := [] }, log_ := false, meter_ := false }

/-- The function `Manager::isStarted`. -/
def isStarted (m : Manager) : Bool := m.startFlag

/-- The function `Manager::isInitialised`. -/
def isInitialised (m : Manager) : Bool := m.initFlag

/-- The function `Manager::initService`: the object after the call and the
exception thrown, if any. -/
def initService (c : Collaborators) (m : Manager) : Manager × Option Exception :=
  match c.Logging_throws m.debug_log_filename with
  | some e => (m, some e)
  | none =>
    let m := { m with log_ := true }
    match c.meter_throws with
    | some e => (m, some e)
    | none =>
      ({ m with meter_ := true, exec_ := m.exec_.spawn 0, initFlag := true }, none)

/-- The function `Manager::startService` at clock value `now`. -/
def startService (m : Manager) (state_ : State) (now : Int) : Manager × State :=
  ({ m with startFlag := true, timeStarted_ := now }, state_.start)

/-- The function `Manager::stopService`. -/
def stopService (m : Manager) (state_ : State) : Manager × State :=
  let r : Manager × State :=
    if m.startFlag then
      ({ m with startFlag := false }, state_.stop)
    else if !m.startFlag && m.initFlag then
      (m, state_.start.stop)
    else
      (m, state_)
  ({ r.1 with exec_ := r.1.exec_.join, initFlag := false }, r.2)

/-- The function `Manager::getRunningTime` at clock value `now`. -/
def getRunningTime (m : Manager) (now : Int) : Int :=
  if m.startFlag then now - m.timeStarted_ else 0

end Manager

/-- The function `startManagerObject` at clock value `now`: the process after
the call, and the value returned or the exception that leaves the
function. -/
def startManagerObject (p : Process) (now : Int) : Process × Except Exception Bool :=
  match p.gManagerObject with
  | some m =>
    if m.isInitialised then
      if !m.isStarted then
        let r := m.startService p.GLOBAL_STATE now
        ({ GLOBAL_STATE := r.2, gManagerObject := some r.1 }, .ok true)
      else (p, .ok false)
    else (p, .ok false)
  | none => (p, .ok false)

/-- The function `stopManagerObject`. -/
def stopManagerObject (p : Process) : Process × Except Exception Bool :=
  match p.gManagerObject with
  | some m =>
    if m.isInitialised then
      if m.isStarted then
        let r := m.stopService p.GLOBAL_STATE
        ({ GLOBAL_STATE := r.2, gManagerObject := some r.1 }, .ok true)
      else (p, .ok false)
    else (p, .ok false)
  | none => (p, .ok false)

/-- The function `createManagerObject`; a null `jstring` is `none`. -/
def createManagerObject (c : Collaborators) (p : Process)
    (jpath juuid : Option String) : Process × Except Exception Bool :=
  match p.gManagerObject with
  | none =>
    match jpath, juuid with
    | some path, some uuid =>
      match c.Manager_throws path uuid with
      | some .spdlog_ex => (p, .ok false)
      | some e => (p, .error e)
      | none => ({ p with gManagerObject := some (Manager.new path uuid) }, .ok true)
    | _, _ => (p, .error .std_exception)
  | some _ => (p, .ok false)

/-- The function `initManagerObject`. -/
def initManagerObject (c : Collaborators) (p : Process) :
    Process × Except Exception Bool :=
  match p.gManagerObject with
  | none => (p, .ok false)
  | some m =>
    if m.isInitialised || m.isStarted then (p, .ok false)
    else
      match m.initService c with
      | (m1, some e) => ({ p with gManagerObject := some m1 }, .error e)
      | (m1, none) => ({ p with gManagerObject := some m1 }, .ok m1.isInitialised)

/-- The function `resetManagerObject` with strings that are not null.  When
the constructor of the new manager throws, the pointer keeps the old
manager. -/
def resetManagerObject (c : Collaborators) (p : Process) (path uuid : String) :
    Process × Except Exception Bool :=
  match p.gManagerObject with
  | some m =>
    let r := if m.isStarted then m.stopService p.GLOBAL_STATE else (m, p.GLOBAL_STATE)
    match c.Manager_throws path uuid with
    | some e => ({ GLOBAL_STATE := r.2, gManagerObject := some r.1 }, .error e)
    | none =>
      ({ GLOBAL_STATE := r.2, gManagerObject := some (Manager.new path uuid) }, .ok true)
  | none => (p, .ok false)

/-- The function `destroyManagerObject`. -/
def destroyManagerObject (p : Process) : Process × Except Exception Bool :=
  match p.gManagerObject with
  | some m =>
    let r := if m.isStarted then m.stopService p.GLOBAL_STATE else (m, p.GLOBAL_STATE)
    ({ GLOBAL_STATE := r.2, gManagerObject := none }, .ok true)
  | none => (p, .ok false)

/-- One call of a legacy JNI operation, with its arguments and, for
`startManagerObject`, the clock value it reads. -/
inductive JniCall where
  | createManagerObject (jpath juuid : Option String)
  | initManagerObject
  | startManagerObject (now : Int)
  | stopManagerObject
  | resetManagerObject (path uuid : String)
  | destroyManagerObject

/-- The process after one call, and what the call returns or throws. -/
def step (c : Collaborators) (p : Process) : JniCall → Process × Except Exception Bool
  | .createManagerObject jpath juuid => createManagerObject c p jpath juuid
  | .initManagerObject => initManagerObject c p
  | .startManagerObject now => startManagerObject p now
  | .stopManagerObject => stopManagerObject p
  | .resetManagerObject path uuid => resetManagerObject c p path uuid
  | .destroyManagerObject => destroyManagerObject p

/-- The process after a sequence of calls, first call first.  A call that
throws leaves the process as it was at the throw, and the sequence goes on
from there. -/
def run (c : Collaborators) (p : Process) : List JniCall → Process
  | [] => p
  | call :: calls => run c (step c p call).1 calls

/-- Whether a call returned true. -/
def returned_true : Except Exception Bool → Bool
  | .ok true => true
  | _ => false

/-- Whether no `initManagerObject` of a sequence of calls returns true. -/
def no_init_success (c : Collaborators) (p : Process) : List JniCall → Bool
  | [] => true
  | .initManagerObject :: calls =>
    !returned_true (initManagerObject c p).2
      && no_init_success c (initManagerObject c p).1 calls
  | call :: calls => no_init_success c (step c p call).1 calls

/-- The invariant of the legacy flags: a manager that exists and is started is
initialised. -/
def invariant (p : Process) : Bool :=
  match p.gManagerObject with
  | some m => !m.isStarted || m.isInitialised
  | none => true

/-- Whether the process has no initialised manager. -/
def not_initialised (p : Process) : Bool :=
  match p.gManagerObject with
  | some m => !m.isInitialised
  | none => true

/-- Collaborators that never throw. -/
def quietCollaborators : Collaborators :=
  { Manager_throws := fun _ _ => none, Logging_throws := fun _ => none,
    meter_throws := none }

end thermalsc_ui

/-! ## Example inputs -/

/-- A manager on the given global state that has one worker running and has
not been started by `Manager::start`. -/
def managerOn (s : State) : Manager :=
  { state_ := s, json_object_ := .obj [], started_at_ := 0,
    executor_ := { threads := [1] }, trace := [] }

/-- A wrapper holding `managerOn s`. -/
def wrapperOn (s : State) : Wrapper := { manager_ptr_ := some (managerOn s) }

/-- An environment with three components in which nothing throws and every
text parses to the empty object. -/
def quietEnvironment : Environment :=
  { parse := fun _ => .ok (.obj []), sizeof_Components := 3,
    configure := fun _ => none, construct := fun _ _ => none }

/-- Some handle values. -/
def someHandles : Handles :=
  { java_vm_ptr := 1, java_instance_ptr := 2, java_class_ptr := 3,
    java_method_id_ptr := 4, jni_version := 65542 }

/-- An environment whose second component throws an object that is not
derived from `std::exception`; everything else is as in the quiet
environment. -/
def throwingEnvironment : Environment :=
  { parse := fun _ => .ok (.obj []), sizeof_Components := 3,
    configure := fun _ => none,
    construct := fun I _ => if I = 2 then some .other else none }

/-- The entries of the document `{"mod_a": {"x": 1}, "mod_b": "ignored_scalar"}`. -/
def exampleDocument : List (String × Json) :=
  [("mod_a", .obj [("x", .num 1)]), ("mod_b", .str "ignored_scalar")]

/-! ## Calls on the state and the executor -/

/-- A manager as the constructor has it before its first statement, on an
idle global state. -/
def freshManager : Manager :=
  { state_ := State.ofPhase .Idle, json_object_ := .null, started_at_ := 0,
    executor_ := { threads := [] }, trace := [] }

/-- The calls that are made on the global state or on the executor once the
manager is built. -/
def Op.on_state_or_executor : Op → Bool
  | .state_start => true
  | .state_stop => true
  | .state_terminate => true
  | .state_reset => true
  | .executor_join => true
  | _ => false

/-- The calls on the global state and on the executor that were appended to
the trace of `m` to reach `after`. -/
def Manager.issued (m after : Manager) : List Op :=
  ((after.trace.drop m.trace.length).map Step.op).filter Op.on_state_or_executor

/-! ## Lemmas on construction -/

theorem Manager.construct_components_state (env : Environment) (config : Json) :
    ∀ (l : List Nat) (m : Manager),
      (Manager.construct_components env config l m).1.state_ = m.state_
  | [], _ => rfl
  | I :: rest, m => by
    unfold Manager.construct_components
    cases env.construct I config with
    | some e => rfl
    | none =>
      simp only []
      rw [Manager.construct_components_state env config rest]
      rfl

theorem Manager.connect_components_state :
    ∀ (l : List Nat) (m : Manager),
      (Manager.connect_components l m).state_ = m.state_
  | [], _ => rfl
  | I :: rest, m => by
    unfold Manager.connect_components
    rw [Manager.connect_components_state rest]
    rfl

theorem Manager.spawn_components_state :
    ∀ (l : List Nat) (m : Manager),
      (Manager.spawn_components l m).state_ = m.state_
  | [], _ => rfl
  | I :: rest, m => by
    unfold Manager.spawn_components
    rw [Manager.spawn_components_state rest]
    rfl

/-- The function `Manager::create` issues no call on the global state. -/
theorem Manager.create_state (env : Environment) (m : Manager) (config : Json) :
    (Manager.create env m config).1.state_ = m.state_ := by
  unfold Manager.create
  cases env.configure config with
  | some e => rfl
  | none =>
    simp only []
    have hc := Manager.construct_components_state env config
      (List.range (env.sizeof_Components + 1))
      ((m.log .configure).log .init_global_state_handlers)
    rcases hr : Manager.construct_components env config
      (List.range (env.sizeof_Components + 1))
      ((m.log .configure).log .init_global_state_handlers) with ⟨m1, _ | e⟩
    · rw [hr] at hc
      simp only [Manager.spawn_components_state]
      split_ifs
      · rw [Manager.connect_components_state]; exact hc
      · exact hc
    · rw [hr] at hc
      exact hc

/-- A manager is constructed on the global state as it finds it. -/
theorem Manager.new_state (env : Environment) (g : State) (json_string : String)
    (h : Handles) : (Manager.new env g json_string h).1.state_ = g := by
  unfold Manager.new
  cases env.parse json_string with
  | error e => rfl
  | ok j =>
    simp only []
    cases Manager.preprocess h j with
    | error e => rfl
    | ok config => simp only [Manager.create_state]

/-! ## Lemmas on the configuration document and on the construction trace -/

/-- Lookup after an assignment. -/
theorem Json.lookup_assign (k k1 : String) (v : Json) :
    ∀ l : List (String × Json),
      Json.lookup k (Json.assign k1 v l) = if k1 = k then some v else Json.lookup k l
  | [] => by simp [Json.assign, Json.lookup]
  | (k2, v2) :: rest => by
    have ih := Json.lookup_assign k k1 v rest
    by_cases h21 : k2 = k1
    · subst h21
      by_cases h2 : k2 = k <;> simp [Json.assign, Json.lookup, h2]
    · by_cases h2 : k2 = k
      · subst h2
        have h12 : ¬ k1 = k2 := fun h => h21 h.symm
        simp [Json.assign, Json.lookup, h21, h12]
      · simp [Json.assign, Json.lookup, h21, h2, ih]

/-- Lookup after a change of every value. -/
theorem Json.lookup_map (k : String) (f : Json → Json) :
    ∀ l : List (String × Json),
      Json.lookup k (l.map fun kv => (kv.1, f kv.2)) = (Json.lookup k l).map f
  | [] => rfl
  | (k2, v2) :: rest => by
    have ih := Json.lookup_map k f rest
    by_cases h2 : k2 = k <;> simp [Json.lookup, h2, ih]

/-- Assignment of a key that is not there adds the entry at the end. -/
theorem Json.assign_of_lookup_none (k : String) (v : Json) :
    ∀ l : List (String × Json), Json.lookup k l = none →
      Json.assign k v l = l ++ [(k, v)]
  | [], _ => rfl
  | (k2, v2) :: rest, h => by
    by_cases h2 : k2 = k
    · simp [Json.lookup, h2] at h
    · simp [Json.lookup, h2] at h
      simp [Json.assign, h2, Json.assign_of_lookup_none k v rest h]

/-- A key found among the first entries is found with more entries behind. -/
theorem Json.lookup_append_of_some (k : String) (v : Json) (l2 : List (String × Json)) :
    ∀ l1 : List (String × Json), Json.lookup k l1 = some v →
      Json.lookup k (l1 ++ l2) = some v
  | [], h => by simp [Json.lookup] at h
  | (k2, v2) :: rest, h => by
    by_cases h2 : k2 = k
    · simpa [Json.lookup, h2] using h
    · simp only [Json.lookup, h2, if_false] at h
      simp [Json.lookup, h2, Json.lookup_append_of_some k v l2 rest h]

/-- The two loops of the constructor on an object: every value goes through
the body of the first loop, and the entry `"process_android"` is added if
the key is not there. -/
theorem Manager.preprocess_obj (h : Handles) (kvs : List (String × Json)) :
    Manager.preprocess h (.obj kvs)
      = .ok (.obj
          (if (Json.lookup "process_android" kvs).isSome then
            kvs.map fun kv => (kv.1, Manager.add_handles h kv.2)
          else
            (kvs.map fun kv => (kv.1, Manager.add_handles h kv.2))
              ++ [("process_android", .obj (Manager.handle_fields h))])) := by
  have hl := Json.lookup_map "process_android" (Manager.add_handles h) kvs
  cases hp : Json.lookup "process_android" kvs with
  | none =>
    rw [hp] at hl
    have ha := Json.assign_of_lookup_none "process_android"
      (.obj (Manager.handle_fields h)) _ hl
    simp [Manager.preprocess, Manager.android_modules, List.foldlM,
      Manager.inject_handles, Manager.ensure_android_module, Json.contains, hl, ha]
  | some v =>
    rw [hp] at hl
    simp [Manager.preprocess, Manager.android_modules, List.foldlM,
      Manager.inject_handles, Manager.ensure_android_module, Json.contains, hl]

/-- The fields of an object value after the body of the first loop. -/
theorem Manager.add_handles_fields (h : Handles) (fields : List (String × Json)) :
    ∃ fields1, Manager.add_handles h (.obj fields) = .obj fields1 ∧
      Json.lookup "jvm" fields1 = some (.num h.java_vm_ptr) ∧
      Json.lookup "jinstance" fields1 = some (.num h.java_instance_ptr) ∧
      Json.lookup "jclazz" fields1 = some (.num h.java_class_ptr) ∧
      Json.lookup "jmid" fields1 = some (.num h.java_method_id_ptr) ∧
      Json.lookup "jniversion" fields1 = some (.num h.jni_version) ∧
      ∀ f, f ∉ ["jvm", "jinstance", "jclazz", "jmid", "jniversion"] →
        Json.lookup f fields1 = Json.lookup f fields := by
  refine ⟨_, rfl, ?_, ?_, ?_, ?_, ?_, ?_⟩
  · simp [Json.lookup_assign]
  · simp [Json.lookup_assign]
  · simp [Json.lookup_assign]
  · simp [Json.lookup_assign]
  · simp [Json.lookup_assign]
  · intro f hf
    simp only [List.mem_cons, List.mem_singleton, List.not_mem_nil, or_false, not_or] at hf
    obtain ⟨h1, h2, h3, h4, h5⟩ := hf
    have e1 : ¬ "jvm" = f := fun e => h1 e.symm
    have e2 : ¬ "jinstance" = f := fun e => h2 e.symm
    have e3 : ¬ "jclazz" = f := fun e => h3 e.symm
    have e4 : ¬ "jmid" = f := fun e => h4 e.symm
    have e5 : ¬ "jniversion" = f := fun e => h5 e.symm
    simp [Json.lookup_assign, e1, e2, e3, e4, e5]

/-- The body of the first loop skips a value that is not an object. -/
theorem Manager.add_handles_of_not_object (h : Handles) (v : Json)
    (hv : v.is_object = false) : Manager.add_handles h v = v := by
  cases v <;> simp [Json.is_object] at hv <;> rfl

/-- The value of a key of the document after the two loops. -/
theorem Manager.preprocess_lookup (h : Handles) (kvs : List (String × Json))
    (k : String) (v : Json) (hk : Json.lookup k kvs = some v) :
    ∃ kvs1, Manager.preprocess h (.obj kvs) = .ok (.obj kvs1) ∧
      Json.lookup k kvs1 = some (Manager.add_handles h v) := by
  have hm := Json.lookup_map k (Manager.add_handles h) kvs
  rw [hk] at hm
  refine ⟨_, Manager.preprocess_obj h kvs, ?_⟩
  split_ifs
  · exact hm
  · exact Json.lookup_append_of_some k _ _ _ hm

/-- The calls in the trace after one more call. -/
theorem Manager.log_ops (m : Manager) (op : Op) :
    (m.log op).trace.map Step.op = m.trace.map Step.op ++ [op] := by
  simp [Manager.log]

/-- The calls in the trace after the components have been built. -/
theorem Manager.construct_components_ops (env : Environment) (config : Json) :
    ∀ (l : List Nat) (m : Manager),
      (Manager.construct_components env config l m).2 = none →
      (Manager.construct_components env config l m).1.trace.map Step.op
        = m.trace.map Step.op ++ l.map Op.construct
  | [], m, _ => by simp [Manager.construct_components]
  | I :: rest, m, h => by
    unfold Manager.construct_components at h ⊢
    cases hc : env.construct I config with
    | some e => rw [hc] at h; simp at h
    | none =>
      rw [hc] at h
      simp only [] at h ⊢
      rw [Manager.construct_components_ops env config rest _ h, Manager.log_ops]
      simp

/-- The calls in the trace after the components have been connected. -/
theorem Manager.connect_components_ops :
    ∀ (l : List Nat) (m : Manager),
      (Manager.connect_components l m).trace.map Step.op
        = m.trace.map Step.op ++ l.map (fun I => Op.connect I (I + 1))
  | [], m => by simp [Manager.connect_components]
  | I :: rest, m => by
    unfold Manager.connect_components
    rw [Manager.connect_components_ops rest, Manager.log_ops]
    simp

/-- The calls in the trace after the components have been spawned. -/
theorem Manager.spawn_components_ops :
    ∀ (l : List Nat) (m : Manager),
      (Manager.spawn_components l m).trace.map Step.op
        = m.trace.map Step.op ++ l.map Op.spawn
  | [], m => by simp [Manager.spawn_components]
  | I :: rest, m => by
    unfold Manager.spawn_components
    rw [Manager.spawn_components_ops rest, Manager.log_ops]
    simp

/-- The calls of a run of `Manager::create` that does not throw. -/
theorem Manager.create_ops (env : Environment) (m : Manager) (config : Json)
    (h : (Manager.create env m config).2 = none) :
    (Manager.create env m config).1.trace.map Step.op
      = m.trace.map Step.op ++ [Op.configure, Op.init_global_state_handlers]
          ++ (List.range (env.sizeof_Components + 1)).map Op.construct
          ++ (List.range' 1 (env.sizeof_Components - 1)).map
              (fun I => Op.connect I (I + 1))
          ++ (List.range' 1 env.sizeof_Components).map Op.spawn := by
  unfold Manager.create at h ⊢
  cases hc : env.configure config with
  | some e => rw [hc] at h; simp at h
  | none =>
    rw [hc] at h
    simp only [] at h ⊢
    have hops := Manager.construct_components_ops env config
      (List.range (env.sizeof_Components + 1))
      ((m.log .configure).log .init_global_state_handlers)
    rcases hr : Manager.construct_components env config
      (List.range (env.sizeof_Components + 1))
      ((m.log .configure).log .init_global_state_handlers) with ⟨m1, _ | e⟩
    · rw [hr] at hops
      have hops1 := hops rfl
      simp only [] at hops1
      simp only [Manager.spawn_components_ops]
      by_cases hN : env.sizeof_Components > 1
      · simp only [hN, if_true, Manager.connect_components_ops, hops1,
          Manager.log_ops]
        simp
      · have h0 : env.sizeof_Components - 1 = 0 := by omega
        simp only [hN, if_false, hops1, Manager.log_ops, h0]
        simp
    · rw [hr] at h
      simp at h

/-- The calls of a run of the constructor that does not throw. -/
theorem Manager.new_ops (env : Environment) (g : State) (json_string : String)
    (h : Handles) (hc : (Manager.new env g json_string h).2 = none) :
    (Manager.new env g json_string h).1.trace.map Step.op
      = [Op.configure, Op.init_global_state_handlers]
          ++ (List.range (env.sizeof_Components + 1)).map Op.construct
          ++ (List.range' 1 (env.sizeof_Components - 1)).map
              (fun I => Op.connect I (I + 1))
          ++ (List.range' 1 env.sizeof_Components).map Op.spawn := by
  unfold Manager.new at hc ⊢
  cases hp : env.parse json_string with
  | error e => rw [hp] at hc; simp at hc
  | ok j =>
    rw [hp] at hc
    simp only [] at hc ⊢
    cases hq : Manager.preprocess h j with
    | error e => rw [hq] at hc; simp at hc
    | ok config =>
      rw [hq] at hc
      simp only [] at hc ⊢
      rw [Manager.create_ops env _ config hc]
      simp

/-- Building components makes no link. -/
theorem Op.link_construct (l : List Nat) :
    (l.map Op.construct).filterMap Op.link = [] := by
  induction l with
  | nil => rfl
  | cons I rest ih => simp [Op.link, ih]

/-- Spawning components makes no link. -/
theorem Op.link_spawn (l : List Nat) :
    (l.map Op.spawn).filterMap Op.link = [] := by
  induction l with
  | nil => rfl
  | cons I rest ih => simp [Op.link, ih]

/-- Each `connect` call makes its link. -/
theorem Op.link_connect (l : List Nat) :
    (l.map (fun I => Op.connect I (I + 1))).filterMap Op.link
      = l.map (fun I => (I, I + 1)) := by
  induction l with
  | nil => rfl
  | cons I rest ih => simp [Op.link, ih]

/-! ## Lemmas on the lifecycle functions -/

/-- The calls issued by `Manager::stop`, for every reading of the three
predicates. -/
theorem Manager.stop_ops (m : Manager) :
    m.stop.trace.map Step.op
      = m.trace.map Step.op ++
          (Op.flush_all ::
            if m.is_started then [Op.state_stop]
            else if !m.is_stopped || !m.is_terminated then
              [Op.state_start, Op.state_stop]
            else []) := by
  rcases m with ⟨⟨a, b, c⟩, j, t, e, tr⟩
  cases a <;> cases b <;> cases c <;>
    simp [Manager.stop, Manager.flush_all, Manager.state_start, Manager.state_stop,
      Manager.is_started, Manager.is_stopped, Manager.is_terminated,
      State.is_started, State.is_stopped, State.is_terminated]

/-- The function `Manager::terminate` ends with the reset, so it always
returns with a fresh `Idle` state. -/
theorem Manager.terminate_state (m : Manager) :
    m.terminate.state_ = State.ofPhase .Idle := by
  simp [Manager.terminate, Manager.state_reset, State.reset]

/-- The function `Manager::stop` changes neither the running-time origin, nor
the executor, nor the configuration. -/
theorem Manager.stop_fields (m : Manager) :
    m.stop.started_at_ = m.started_at_ ∧ m.stop.executor_ = m.executor_ ∧
      m.stop.json_object_ = m.json_object_ := by
  unfold Manager.stop
  simp only [Manager.flush_all, Manager.state_start, Manager.state_stop]
  split_ifs <;> simp

/-- The function `Manager::terminate` changes neither the running-time origin
nor the configuration, and leaves no worker to join. -/
theorem Manager.terminate_fields (m : Manager) :
    m.terminate.started_at_ = m.started_at_ ∧
      m.terminate.executor_ = { threads := [] } ∧
      m.terminate.json_object_ = m.json_object_ := by
  have hs := m.flush_all.stop_fields
  have hf : m.flush_all.started_at_ = m.started_at_ := rfl
  have hj : m.flush_all.json_object_ = m.json_object_ := rfl
  simp [Manager.terminate, Manager.state_reset, Manager.executor_join,
    Manager.state_terminate, ThreadExecutor.join, hs.1, hs.2.2, hf, hj]

/-- The running-time origin after a sequence of calls is the clock value
read by its most recent `start`. -/
theorem Manager.calls_started_at :
    ∀ (m : Manager) (cs : List Call),
      (m.calls cs).started_at_ = (Call.last_start cs).getD m.started_at_
  | _, [] => rfl
  | m, c :: cs => by
    have ih := Manager.calls_started_at (m.call c) cs
    cases c with
    | start t =>
      simp only [Manager.calls, Call.last_start, Option.getD_some]
      rw [ih]
      rfl
    | stop =>
      simp only [Manager.calls, Call.last_start]
      rw [ih]
      exact congrArg _ m.stop_fields.1
    | terminate =>
      simp only [Manager.calls, Call.last_start]
      rw [ih]
      exact congrArg _ m.terminate_fields.1

/-! ## Lemmas on the running-time text -/

set_option maxRecDepth 100000 in
/-- A count below one hundred is rendered by `{:0>2}` as its two decimal
digits. -/
theorem Wrapper.fill2_two_digits :
    ∀ n : Nat, n < 100 →
      Wrapper.fill2 (toString n)
        = String.mk [Nat.digitChar (n / 10), Nat.digitChar (n % 10)] := by
  decide

/-- A text that ends with a full stop is not the literal `"N/A"`. -/
theorem Wrapper.append_stop_ne (a : String) : a ++ "." ≠ "N/A" := by
  intro h
  have h1 := congrArg String.data h
  have h2 := congrArg List.getLast? h1
  simp [String.data_append] at h2

/-! ## More lemmas on construction and on the configuration document -/

/-- Building components spawns nothing. -/
theorem Manager.construct_components_executor (env : Environment) (config : Json) :
    ∀ (l : List Nat) (m : Manager),
      (Manager.construct_components env config l m).1.executor_ = m.executor_
  | [], _ => rfl
  | I :: rest, m => by
    unfold Manager.construct_components
    cases env.construct I config with
    | some e => rfl
    | none =>
      simp only []
      rw [Manager.construct_components_executor env config rest]
      rfl

/-- Connecting components spawns nothing. -/
theorem Manager.connect_components_executor :
    ∀ (l : List Nat) (m : Manager),
      (Manager.connect_components l m).executor_ = m.executor_
  | [], _ => rfl
  | I :: rest, m => by
    unfold Manager.connect_components
    rw [Manager.connect_components_executor rest]
    rfl

/-- The workers after the components at the given indices have been spawned. -/
theorem Manager.spawn_components_executor :
    ∀ (l : List Nat) (m : Manager),
      (Manager.spawn_components l m).executor_.threads = m.executor_.threads ++ l
  | [], m => by simp [Manager.spawn_components]
  | I :: rest, m => by
    unfold Manager.spawn_components
    rw [Manager.spawn_components_executor rest]
    simp [Manager.log, ThreadExecutor.spawn]

/-- The loop that builds the components throws when the constructor of one of
its indices throws. -/
theorem Manager.construct_components_fails (env : Environment) (config : Json)
    (I : Nat) (hf : env.construct I config ≠ none) :
    ∀ (l : List Nat) (m : Manager), I ∈ l →
      (Manager.construct_components env config l m).2 ≠ none
  | [], _, h => by simp at h
  | J :: rest, m, h => by
    unfold Manager.construct_components
    cases hc : env.construct J config with
    | some e => simp
    | none =>
      simp only []
      have hJ : I ≠ J := by
        intro e
        rw [e] at hf
        exact hf hc
      have hr : I ∈ rest := by
        rcases List.mem_cons.mp h with h1 | h1
        · exact absurd h1 hJ
        · exact h1
      exact Manager.construct_components_fails env config I hf rest _ hr

/-- The loop that builds the components at consecutive indices from `s`
builds, in any run, only components below every index whose constructor
throws. -/
theorem Manager.construct_components_built (env : Environment) (config : Json) :
    ∀ (n s : Nat) (m : Manager),
      ∃ built : List Nat,
        (Manager.construct_components env config (List.range' s n) m).1.trace.map Step.op
          = m.trace.map Step.op ++ built.map Op.construct ∧
        ∀ J ∈ built, ∀ K, s ≤ K → env.construct K config ≠ none → J < K
  | 0, s, m => ⟨[], by simp [Manager.construct_components], by simp⟩
  | n + 1, s, m => by
    rw [List.range'_succ]
    unfold Manager.construct_components
    cases hc : env.construct s config with
    | some e => exact ⟨[], by simp, by simp⟩
    | none =>
      simp only []
      obtain ⟨built, hb, hlt⟩ :=
        Manager.construct_components_built env config n (s + 1) (m.log (.construct s))
      refine ⟨s :: built, ?_, ?_⟩
      · rw [hb, Manager.log_ops]
        simp
      · intro J hJ K hK hf
        have hKs : K ≠ s := by
          intro e
          rw [e] at hf
          exact hf hc
        rcases List.mem_cons.mp hJ with h1 | h1
        · omega
        · exact hlt J h1 K (by omega) hf

/-- The workers after a run of `Manager::create` that does not throw. -/
theorem Manager.create_executor (env : Environment) (m : Manager) (config : Json)
    (h : (Manager.create env m config).2 = none) :
    (Manager.create env m config).1.executor_.threads
      = m.executor_.threads ++ List.range' 1 env.sizeof_Components := by
  unfold Manager.create at h ⊢
  cases hc : env.configure config with
  | some e => rw [hc] at h; simp at h
  | none =>
    rw [hc] at h
    simp only [] at h ⊢
    have hex := Manager.construct_components_executor env config
      (List.range (env.sizeof_Components + 1))
      ((m.log .configure).log .init_global_state_handlers)
    rcases hr : Manager.construct_components env config
      (List.range (env.sizeof_Components + 1))
      ((m.log .configure).log .init_global_state_handlers) with ⟨m1, _ | e⟩
    · rw [hr] at hex
      simp only [] at hex
      simp only [Manager.spawn_components_executor]
      split_ifs
      · rw [Manager.connect_components_executor, hex]; rfl
      · rw [hex]; rfl
    · rw [hr] at h
      simp at h

/-- Assignment of the value a key already has changes nothing. -/
theorem Json.assign_of_lookup_same (k : String) (v : Json) :
    ∀ l : List (String × Json), Json.lookup k l = some v → Json.assign k v l = l
  | [], h => by simp [Json.lookup] at h
  | (k2, v2) :: rest, h => by
    by_cases h2 : k2 = k
    · simp only [Json.lookup, h2, if_true, Option.some.injEq] at h
      simp [Json.assign, h2, h]
    · simp only [Json.lookup, h2, if_false] at h
      simp [Json.assign, h2, Json.assign_of_lookup_same k v rest h]

/-- A key not found among the first entries is looked up in the entries
behind. -/
theorem Json.lookup_append_of_none (k : String) (l2 : List (String × Json)) :
    ∀ l1 : List (String × Json), Json.lookup k l1 = none →
      Json.lookup k (l1 ++ l2) = Json.lookup k l2
  | [], _ => rfl
  | (k2, v2) :: rest, h => by
    by_cases h2 : k2 = k
    · simp [Json.lookup, h2] at h
    · simp only [Json.lookup, h2, if_false] at h
      simp [Json.lookup, h2, Json.lookup_append_of_none k l2 rest h]

/-- The body of the first loop changes nothing the second time. -/
theorem Manager.add_handles_idempotent (h : Handles) (v : Json) :
    Manager.add_handles h (Manager.add_handles h v) = Manager.add_handles h v := by
  cases v with
  | obj fields =>
    obtain ⟨fields1, ha, h1, h2, h3, h4, h5, _⟩ := Manager.add_handles_fields h fields
    rw [ha]
    simp only [Manager.add_handles]
    rw [Json.assign_of_lookup_same _ _ _ h1, Json.assign_of_lookup_same _ _ _ h2,
      Json.assign_of_lookup_same _ _ _ h3, Json.assign_of_lookup_same _ _ _ h4,
      Json.assign_of_lookup_same _ _ _ h5]
  | _ => rfl

/-! ## Lemmas on the legacy layer -/

namespace thermalsc_ui

/-- Every legacy JNI call keeps the invariant of the flags, also when it
throws. -/
theorem step_invariant (c : Collaborators) (p : Process) (call : JniCall)
    (h : invariant p = true) : invariant (step c p call).1 = true := by
  rcases p with ⟨g, _ | m⟩
  · cases call with
    | createManagerObject jpath juuid =>
      rcases jpath with _ | path <;> rcases juuid with _ | uuid <;>
        try (simp [step, createManagerObject, invariant])
      cases hc : c.Manager_throws path uuid with
      | none => simp [hc, Manager.new, Manager.isStarted]
      | some e => cases e <;> simp [hc]
    | initManagerObject => simp [step, initManagerObject, invariant]
    | startManagerObject now => simp [step, startManagerObject, invariant]
    | stopManagerObject => simp [step, stopManagerObject, invariant]
    | resetManagerObject path uuid => simp [step, resetManagerObject, invariant]
    | destroyManagerObject => simp [step, destroyManagerObject, invariant]
  · rcases m with ⟨sf, inf, t, r, d, a, e, l, mt⟩
    simp only [invariant, Manager.isStarted, Manager.isInitialised] at h
    cases call with
    | createManagerObject jpath juuid =>
      simpa [step, createManagerObject, invariant, Manager.isStarted,
        Manager.isInitialised] using h
    | initManagerObject =>
      cases sf <;> cases inf <;>
        simp [step, initManagerObject, invariant, Manager.isStarted,
          Manager.isInitialised, Manager.initService] at h ⊢
      cases c.Logging_throws d with
      | some e1 => simp
      | none =>
        cases c.meter_throws with
        | some e2 => simp
        | none => simp
    | startManagerObject now =>
      cases sf <;> cases inf <;>
        simp [step, startManagerObject, invariant, Manager.isStarted,
          Manager.isInitialised, Manager.startService] at h ⊢
    | stopManagerObject =>
      cases sf <;> cases inf <;>
        simp [step, stopManagerObject, invariant, Manager.isStarted,
          Manager.isInitialised, Manager.stopService] at h ⊢
    | resetManagerObject path uuid =>
      cases hc : c.Manager_throws path uuid <;> cases sf <;> cases inf <;>
        simp [step, resetManagerObject, invariant, Manager.isStarted,
          Manager.isInitialised, Manager.stopService, Manager.new, hc] at h ⊢
    | destroyManagerObject =>
      simp [step, destroyManagerObject, invariant]

/-- Every sequence of legacy JNI calls keeps the invariant of the flags. -/
theorem run_invariant (c : Collaborators) :
    ∀ (calls : List JniCall) (p : Process), invariant p = true →
      invariant (run c p calls) = true
  | [], _, h => h
  | call :: calls, p, h => run_invariant c calls _ (step_invariant c p call h)

/-- After a `stopManagerObject` that returned true the manager exists and has
both flags false. -/
theorem stopManagerObject_true (p : Process)
    (h : returned_true (stopManagerObject p).2 = true) :
    ∃ m, (stopManagerObject p).1.gManagerObject = some m ∧
      m.isStarted = false ∧ m.isInitialised = false := by
  rcases p with ⟨g, _ | m⟩
  · simp [stopManagerObject, returned_true] at h
  · rcases m with ⟨sf, inf, t, r, d, a, e, l, mt⟩
    cases sf <;> cases inf <;>
      simp [stopManagerObject, returned_true, Manager.isStarted, Manager.isInitialised,
        Manager.stopService] at h ⊢

/-- A legacy JNI call that is not an `initManagerObject` returning true leaves
a process without initialised manager in that condition. -/
theorem step_not_initialised (c : Collaborators) (p : Process) (call : JniCall)
    (h : not_initialised p = true)
    (hc : no_init_success c p [call] = true) :
    not_initialised (step c p call).1 = true := by
  rcases p with ⟨g, _ | m⟩
  · cases call with
    | createManagerObject jpath juuid =>
      rcases jpath with _ | path <;> rcases juuid with _ | uuid <;>
        try (simp [step, createManagerObject, not_initialised])
      cases hm : c.Manager_throws path uuid with
      | none => simp [hm, Manager.new, Manager.isInitialised]
      | some e => cases e <;> simp [hm]
    | initManagerObject => simp [step, initManagerObject, not_initialised]
    | startManagerObject now => simp [step, startManagerObject, not_initialised]
    | stopManagerObject => simp [step, stopManagerObject, not_initialised]
    | resetManagerObject path uuid => simp [step, resetManagerObject, not_initialised]
    | destroyManagerObject => simp [step, destroyManagerObject, not_initialised]
  · rcases m with ⟨sf, inf, t, r, d, a, e, l, mt⟩
    simp only [not_initialised, Manager.isInitialised, Bool.not_eq_true'] at h
    subst h
    cases call with
    | createManagerObject jpath juuid =>
      simp [step, createManagerObject, not_initialised, Manager.isInitialised]
    | initManagerObject =>
      cases sf <;>
        simp [step, initManagerObject, not_initialised, Manager.isStarted,
          Manager.isInitialised, Manager.initService, no_init_success,
          returned_true] at hc ⊢
      cases hl : c.Logging_throws d with
      | some e1 => simp
      | none =>
        cases hm : c.meter_throws with
        | some e2 => simp
        | none => simp [hl, hm] at hc
    | startManagerObject now =>
      simp [step, startManagerObject, not_initialised, Manager.isInitialised]
    | stopManagerObject =>
      simp [step, stopManagerObject, not_initialised, Manager.isInitialised]
    | resetManagerObject path uuid =>
      cases hm : c.Manager_throws path uuid <;> cases sf <;>
        simp [step, resetManagerObject, not_initialised, Manager.isStarted,
          Manager.isInitialised, Manager.stopService, Manager.new, hm]
    | destroyManagerObject =>
      simp [step, destroyManagerObject, not_initialised]

/-- The test on a sequence of calls, by its first call and the rest. -/
theorem no_init_success_cons (c : Collaborators) (p : Process) (call : JniCall)
    (calls : List JniCall) :
    no_init_success c p (call :: calls)
      = (no_init_success c p [call] && no_init_success c (step c p call).1 calls) := by
  cases call <;> simp [no_init_success, step]

/-- A sequence of legacy JNI calls without successful `initManagerObject`
leaves a process without initialised manager in that condition. -/
theorem run_not_initialised (c : Collaborators) :
    ∀ (calls : List JniCall) (p : Process), not_initialised p = true →
      no_init_success c p calls = true → not_initialised (run c p calls) = true
  | [], _, h, _ => h
  | call :: calls, p, h, hc => by
    rw [no_init_success_cons, Bool.and_eq_true] at hc
    exact run_not_initialised c calls _ (step_not_initialised c p call h hc.1) hc.2

/-- Without an initialised manager `startManagerObject` returns false and
changes nothing. -/
theorem startManagerObject_not_initialised (p : Process) (now : Int)
    (h : not_initialised p = true) : startManagerObject p now = (p, .ok false) := by
  rcases p with ⟨g, _ | m⟩
  · rfl
  · simp only [not_initialised, Bool.not_eq_true'] at h
    simp [startManagerObject, h]

end thermalsc_ui

/-! ## The claims -/

/-- C1 (the code departs from the claim): a manager that is not started and
is already stopped, or already terminated, is not left alone by
`Manager::stop`: the synthetic `start` then `stop` is issued on the global
state in both cases, where the claim has no transition at all. -/
theorem Manager.stop_synthetic_when_stopped_or_terminated :
    (managerOn ⟨false, true, false⟩).stop.trace.map Step.op
        = [Op.flush_all, Op.state_start, Op.state_stop] ∧
      (managerOn ⟨false, false, true⟩).stop.trace.map Step.op
        = [Op.flush_all, Op.state_start, Op.state_stop] := by
  constructor <;> decide

/-- C2 (counterexample): on an idle manager, `query_state()` after
`terminate()` is `"idle"`, not `"terminated"`. -/
theorem Manager.query_state_terminate_not_terminated :
    (managerOn (State.ofPhase .Idle)).terminate.query_state = "idle" ∧
      (managerOn (State.ofPhase .Idle)).terminate.query_state ≠ "terminated" := by
  constructor <;> decide

/-- C2 (amended): for every manager state, after `terminate()` has returned,
`query_state()` returns `"idle"`. -/
theorem Manager.query_state_terminate (m : Manager) :
    m.terminate.query_state = "idle" := by
  simp [Manager.query_state, Manager.is_terminated, Manager.is_stopped,
    Manager.is_started, Manager.terminate_state, State.ofPhase,
    State.is_terminated, State.is_stopped, State.is_started]

/-- C3: for every starting state, `terminate()` appends to the trace some
calls that only flush, start or stop, and then exactly: the state set to
`Terminated`, the executor joined while the state is still `Terminated`, and
the state reset to a fresh `Idle`.  On return no flag is set and no worker is
left to join. -/
theorem Manager.terminate_order (m : Manager) :
    ∃ (pre : List Step) (t : State),
      (∀ s ∈ pre, s.op = Op.flush_all ∨ s.op = Op.state_start ∨ s.op = Op.state_stop) ∧
      t.is_terminated = true ∧
      m.terminate.trace
        = m.trace ++ pre ++
            [⟨Op.state_terminate, t⟩, ⟨Op.executor_join, t⟩,
             ⟨Op.state_reset, State.ofPhase .Idle⟩] ∧
      m.terminate.state_ = State.ofPhase .Idle ∧
      m.terminate.is_started = false ∧ m.terminate.is_stopped = false ∧
      m.terminate.is_terminated = false ∧
      m.terminate.executor_.threads = [] := by
  rcases m with ⟨⟨a, b, c⟩, j, t, e, tr⟩
  refine ⟨((Manager.mk ⟨a, b, c⟩ j t e []).flush_all.stop).trace,
    ((Manager.mk ⟨a, b, c⟩ j t e []).flush_all.stop).state_.terminate, ?_⟩
  cases a <;> cases b <;> cases c <;>
    simp [Manager.terminate, Manager.stop, Manager.flush_all, Manager.state_start,
      Manager.state_stop, Manager.state_terminate, Manager.state_reset,
      Manager.executor_join, Manager.is_started, Manager.is_stopped,
      Manager.is_terminated, State.is_started, State.is_stopped,
      State.is_terminated, State.start, State.stop, State.terminate, State.reset,
      State.phase, State.ofPhase, ThreadExecutor.join]

/-- C4: for every manager state, a second `terminate()` right after the
first leaves the flags of the global state, the running-time origin, the
executor and the answer of `query_state()` exactly as the first call left
them, and so does the destructor that `Wrapper::destroy` runs after its
explicit `terminate()`; the functions are total, so the second call
returns. -/
theorem Manager.terminate_idempotent (m : Manager) :
    m.terminate.terminate.state_ = m.terminate.state_ ∧
      m.terminate.terminate.started_at_ = m.terminate.started_at_ ∧
      m.terminate.terminate.executor_ = m.terminate.executor_ ∧
      m.terminate.terminate.query_state = m.terminate.query_state ∧
      (Wrapper.mk (some m)).destroy.2.2 = some m.terminate.terminate := by
  refine ⟨?_, ?_, ?_, ?_, rfl⟩
  · rw [Manager.terminate_state, Manager.terminate_state]
  · rw [m.terminate.terminate_fields.1]
  · rw [m.terminate.terminate_fields.2.1, m.terminate_fields.2.1]
  · rw [Manager.query_state_terminate, Manager.query_state_terminate]

/-- C5: `query_state()` on each of the eight combinations of the flags
`(started, stopped, terminated)`, whatever the other members hold, and the
result is always one of the four strings. -/
theorem Manager.query_state_priority (j : Json) (t : Int) (e : ThreadExecutor)
    (tr : List Step) :
    (Manager.mk ⟨false, false, false⟩ j t e tr).query_state = "idle" ∧
      (Manager.mk ⟨true, false, false⟩ j t e tr).query_state = "started" ∧
      (Manager.mk ⟨false, true, false⟩ j t e tr).query_state = "stopped" ∧
      (Manager.mk ⟨true, true, false⟩ j t e tr).query_state = "stopped" ∧
      (Manager.mk ⟨false, false, true⟩ j t e tr).query_state = "terminated" ∧
      (Manager.mk ⟨true, false, true⟩ j t e tr).query_state = "terminated" ∧
      (Manager.mk ⟨false, true, true⟩ j t e tr).query_state = "terminated" ∧
      (Manager.mk ⟨true, true, true⟩ j t e tr).query_state = "terminated" ∧
      ∀ m : Manager, m.query_state ∈ ["terminated", "stopped", "started", "idle"] := by
  refine ⟨rfl, rfl, rfl, rfl, rfl, rfl, rfl, rfl, ?_⟩
  intro m
  unfold Manager.query_state
  split_ifs <;> simp

/-- C6 (counterexample): on a wrapper holding a started manager,
`terminate()` returns true and the following `start()` returns true as well,
and moves the manager from `"idle"` to `"started"`. -/
theorem Wrapper.start_after_terminate_accepted :
    (wrapperOn (State.ofPhase .Started)).terminate.1 = true ∧
      (wrapperOn (State.ofPhase .Started)).terminate.2.query_state = "idle" ∧
      ((wrapperOn (State.ofPhase .Started)).terminate.2.start 5).1 = true ∧
      ((wrapperOn (State.ofPhase .Started)).terminate.2.start 5).2.query_state
        = "started" := by
  decide

/-- C6 (amended): after `Wrapper::terminate` on an existing manager, which
returns true and leaves the state idle, a following `start()` at clock value
`now` returns true, the state becomes `"started"` and the running-time origin
is `now`. -/
theorem Wrapper.start_after_terminate (m : Manager) (now : Int) :
    (Wrapper.mk (some m)).terminate.1 = true ∧
      (Wrapper.mk (some m)).terminate.2.query_state = "idle" ∧
      ((Wrapper.mk (some m)).terminate.2.start now).1 = true ∧
      ((Wrapper.mk (some m)).terminate.2.start now).2.query_state = "started" ∧
      ((Wrapper.mk (some m)).terminate.2.start now).2.manager_ptr_.map
        Manager.started_at_ = some now := by
  have hs := Manager.terminate_state m
  have hq := Manager.query_state_terminate m
  simp [Wrapper.terminate, Wrapper.start, Wrapper.query_state, hq,
    Manager.is_started, hs, State.is_started, State.ofPhase, Manager.start,
    Manager.query_state, Manager.flush_all, Manager.state_start,
    Manager.is_terminated, Manager.is_stopped, State.is_terminated,
    State.is_stopped, State.start, State.phase]

/-- C7: `stop()` on an idle manager (not started, not stopped, not
terminated) returns with the state stopped: `query_state()` is `"stopped"`,
not `"started"`, and `is_started()` is false. -/
theorem Manager.stop_idle (m : Manager) (h1 : m.is_started = false)
    (h2 : m.is_stopped = false) (h3 : m.is_terminated = false) :
    m.stop.query_state = "stopped" ∧ m.stop.query_state ≠ "started" ∧
      m.stop.is_started = false ∧ m.stop.state_ = State.ofPhase .Stopped := by
  rcases m with ⟨⟨a, b, c⟩, j, t, e, tr⟩
  simp only [Manager.is_started, Manager.is_stopped, Manager.is_terminated,
    State.is_started, State.is_stopped, State.is_terminated] at h1 h2 h3
  subst h1 h2 h3
  simp [Manager.stop, Manager.flush_all, Manager.state_start, Manager.state_stop,
    Manager.query_state, Manager.is_started, Manager.is_stopped,
    Manager.is_terminated, State.is_started, State.is_stopped,
    State.is_terminated, State.start, State.stop, State.phase, State.ofPhase]

/-- C7 (witness): the idle example manager. -/
theorem Manager.stop_idle_witness :
    (managerOn (State.ofPhase .Idle)).stop.query_state = "stopped" ∧
      (managerOn (State.ofPhase .Idle)).stop.query_state ≠ "started" ∧
      (managerOn (State.ofPhase .Idle)).stop.is_started = false ∧
      (managerOn (State.ofPhase .Idle)).stop.state_ = State.ofPhase .Stopped :=
  Manager.stop_idle (managerOn (State.ofPhase .Idle)) rfl rfl rfl

/-- C8: after every sequence of lifecycle calls, `get_running_time()` at
clock value `now` is `now` minus the clock value recorded by the most recent
`start` of the sequence (the origin the manager had before, if the sequence
has no `start`) when `is_started()` is true, and the zero duration when
`is_started()` is false. -/
theorem Manager.get_running_time_spec (m : Manager) (cs : List Call) (now : Int) :
    (m.calls cs).get_running_time now
      = (if (m.calls cs).is_started = true then
          now - (Call.last_start cs).getD m.started_at_
        else 0) := by
  rw [← Manager.calls_started_at m cs]
  rfl

/-- C9: when construction on an idle global state does not throw, `create`
returns true, the following `start` and `stop` both return true, and after
them the manager's running time is the zero duration and the wrapper's is
`"N/A"`, at every clock value `now`. -/
theorem Wrapper.round_trip_running_time (env : Environment) (config : String)
    (h : Handles) (t now : Int)
    (hc : (Manager.new env (State.ofPhase .Idle) config h).2 = none) :
    ∃ w : Wrapper,
      Wrapper.create env (State.ofPhase .Idle) ⟨none⟩ config h = .ok (true, w) ∧
      (w.start t).1 = true ∧ (w.start t).2.stop.1 = true ∧
      (w.start t).2.stop.2.get_running_time now = "N/A" ∧
      (w.start t).2.stop.2.manager_ptr_.map (fun m => m.get_running_time now)
        = some 0 := by
  have hs := Manager.new_state env (State.ofPhase .Idle) config h
  rcases hr : Manager.new env (State.ofPhase .Idle) config h with ⟨m, _ | e⟩
  · rw [hr] at hs
    rcases m with ⟨s, j, t0, e, tr⟩
    simp only at hs
    subst hs
    refine ⟨⟨some ⟨State.ofPhase .Idle, j, t0, e, tr⟩⟩, ?_, ?_⟩
    · simp [Wrapper.create, hr]
    simp [Wrapper.start, Wrapper.stop, Wrapper.get_running_time,
      Manager.start, Manager.stop, Manager.flush_all, Manager.state_start,
      Manager.state_stop, Manager.get_running_time, Manager.is_started,
      Manager.is_stopped, Manager.is_terminated, State.is_started,
      State.is_stopped, State.is_terminated, State.start, State.stop,
      State.phase, State.ofPhase]
  · rw [hr] at hc
    cases hc

/-- C9 (witness): the quiet environment, where construction succeeds. -/
theorem Wrapper.round_trip_running_time_witness :
    ∃ w : Wrapper,
      Wrapper.create quietEnvironment (State.ofPhase .Idle) ⟨none⟩ "{}" someHandles
        = .ok (true, w) ∧
      (w.start 100).1 = true ∧ (w.start 100).2.stop.1 = true ∧
      (w.start 100).2.stop.2.get_running_time 3723000000100 = "N/A" ∧
      (w.start 100).2.stop.2.manager_ptr_.map
        (fun m => m.get_running_time 3723000000100) = some 0 :=
  Wrapper.round_trip_running_time quietEnvironment "{}" someHandles 100
    3723000000100 rfl

/-- C10: `create` on a wrapper that holds a manager returns false and the
same wrapper, for every environment, global state, configuration string and
handles: the constructor has no part in the result. -/
theorem Wrapper.create_when_held (env : Environment) (g : State) (m : Manager)
    (config : String) (h : Handles) :
    Wrapper.create env g ⟨some m⟩ config h = .ok (false, ⟨some m⟩) := rfl

/-- C11 (counterexample): on an empty wrapper, a component constructor that
throws an object not derived from `std::exception` is caught by neither
handler of `create`: the exception leaves the function instead of being
turned into the result false. -/
theorem Wrapper.create_propagates_other :
    Wrapper.create throwingEnvironment (State.ofPhase .Idle) ⟨none⟩ "{}" someHandles
      = .error .other := rfl

/-- C11 (amended): `create` on an empty wrapper, by the outcome of the
constructor.  A `spdlog::spdlog_ex` and any other exception derived from
`std::exception` (such as the parser's on invalid JSON text) give the result
false and an empty wrapper; an object of any other type is not caught; when
the constructor returns, the result is true and the wrapper holds the
manager.  A parse error is an outcome of the constructor as it is. -/
theorem Wrapper.create_atomic (env : Environment) (g : State) (config : String)
    (h : Handles) :
    (match (Manager.new env g config h).2 with
      | some .spdlog_ex =>
        Wrapper.create env g ⟨none⟩ config h = .ok (false, ⟨none⟩)
      | some .std_exception =>
        Wrapper.create env g ⟨none⟩ config h = .ok (false, ⟨none⟩)
      | some .other => Wrapper.create env g ⟨none⟩ config h = .error .other
      | none =>
        Wrapper.create env g ⟨none⟩ config h
          = .ok (true, ⟨some (Manager.new env g config h).1⟩)) ∧
      (Wrapper.mk none).exists = false ∧
      (Wrapper.mk (some (Manager.new env g config h).1)).exists = true ∧
      (∀ e, env.parse config = .error e → (Manager.new env g config h).2 = some e) := by
  refine ⟨?_, rfl, rfl, ?_⟩
  · rcases hr : Manager.new env g config h with ⟨m, _ | e⟩
    · simp [Wrapper.create, hr]
    · cases e <;> simp [Wrapper.create, hr]
  · intro e he
    simp [Manager.new, he]

/-- C12: `Wrapper::start` returns true exactly when a manager is held and its
`is_started()` is false; then the held manager is the result of one
`Manager::start`, which appends one flush and one `start` of the state to the
trace.  When it returns false the wrapper, with the manager's state and
running-time origin, is unchanged. -/
theorem Wrapper.start_spec (w : Wrapper) (now : Int) :
    ((w.start now).1 = true ↔ ∃ m, w.manager_ptr_ = some m ∧ m.is_started = false) ∧
      (∀ m, w.manager_ptr_ = some m → m.is_started = false →
        (w.start now).2 = ⟨some (m.start now)⟩ ∧
        (m.start now).trace.map Step.op
          = m.trace.map Step.op ++ [Op.flush_all, Op.state_start]) ∧
      ((w.start now).1 = false → (w.start now).2 = w) := by
  rcases w with ⟨_ | m⟩
  · simp [Wrapper.start]
  · cases hs : m.is_started <;>
      simp [Wrapper.start, hs, Manager.start, Manager.flush_all, Manager.state_start]

/-- C13: `Wrapper::stop` returns true exactly when a manager is held and its
`is_started()` is true; then the held manager is the result of one
`Manager::stop`.  When it returns false the wrapper is unchanged, so the
trace of the held manager has no new call on the global state. -/
theorem Wrapper.stop_spec (w : Wrapper) :
    (w.stop.1 = true ↔ ∃ m, w.manager_ptr_ = some m ∧ m.is_started = true) ∧
      (∀ m, w.manager_ptr_ = some m → m.is_started = true →
        w.stop.2 = ⟨some m.stop⟩ ∧
        m.stop.trace.map Step.op
          = m.trace.map Step.op ++ [Op.flush_all, Op.state_stop]) ∧
      (w.stop.1 = false → w.stop.2 = w) ∧
      (Wrapper.stop ⟨some (managerOn (State.ofPhase .Idle))⟩
        = (false, ⟨some (managerOn (State.ofPhase .Idle))⟩)) := by
  refine ⟨?_, ?_, ?_, rfl⟩
  · rcases w with ⟨_ | m⟩
    · simp [Wrapper.stop]
    · cases hs : m.is_started <;> simp [Wrapper.stop, hs]
  · intro m hm hs
    have ho := m.stop_ops
    rw [hs] at ho
    simp [Wrapper.stop, hm, hs, ho]
  · rcases w with ⟨_ | m⟩
    · simp [Wrapper.stop]
    · cases hs : m.is_started <;> simp [Wrapper.stop, hs]

/-- C14: `Wrapper::terminate` returns true exactly when a manager is held,
whatever its state; the held manager is then the result of
`Manager::terminate` and stays in the wrapper, so `exists()` answers after
the call what it answered before. -/
theorem Wrapper.terminate_spec (w : Wrapper) :
    (w.terminate.1 = true ↔ w.exists = true) ∧
      w.terminate.2.exists = w.exists ∧
      w.terminate.2.manager_ptr_ = w.manager_ptr_.map Manager.terminate := by
  rcases w with ⟨_ | m⟩ <;> simp [Wrapper.terminate, Wrapper.exists]

/-- C15: `Wrapper::destroy` returns true exactly when a manager was held.
Then the manager released is the held one after `terminate()` and after its
destructor, no worker is left to join, and the wrapper is empty: `exists()`
and `is_started()` are false, `query_state()` is `"missing"` and
`get_running_time()` is `"N/A"`.  When it returns false the wrapper is
unchanged and empty. -/
theorem Wrapper.destroy_spec (w : Wrapper) (now : Int) :
    (w.destroy.1 = true ↔ w.exists = true) ∧
      w.destroy.2.2 = w.manager_ptr_.map (fun m => m.terminate.destructor) ∧
      w.destroy.2.2.map (fun m => m.executor_.threads)
        = w.manager_ptr_.map (fun _ => []) ∧
      w.destroy.2.1 = ⟨none⟩ ∧
      w.destroy.2.1.exists = false ∧
      w.destroy.2.1.is_started = false ∧
      w.destroy.2.1.query_state = "missing" ∧
      w.destroy.2.1.get_running_time now = "N/A" ∧
      (w.destroy.1 = false → w.destroy.2.1 = w) := by
  rcases w with ⟨_ | m⟩
  · simp [Wrapper.destroy, Wrapper.exists, Wrapper.is_started, Wrapper.query_state,
      Wrapper.get_running_time]
  · have ht := m.terminate.terminate_fields.2.1
    simp [Wrapper.destroy, Wrapper.exists, Wrapper.is_started, Wrapper.query_state,
      Wrapper.get_running_time, Manager.destructor, ht]

/-- C16: `Wrapper::get_running_time` is `"N/A"` without a manager and with a
manager that is not started, and is not `"N/A"` with a started one.  With a
started manager and a running time of `d ≥ 0` nanoseconds the text is
`H:M:S.` for `H = d div 3600e9`, `M = (d div 60e9) mod 60` and
`S = (d div 1e9) mod 60`, each in decimal and padded with `'0'` to two
characters; `M` and `S` are at most 59 and `3600 H + 60 M + S` is the number
of whole seconds; below one hundred hours the text is the nine characters
`HH:MM:SS.`. -/
theorem Wrapper.get_running_time_format (sp tm : Bool) (j : Json) (t0 : Int)
    (e : ThreadExecutor) (tr : List Step) (now : Int) (d : Nat) :
    (Wrapper.mk none).get_running_time now = "N/A" ∧
      (Wrapper.mk (some ⟨⟨false, sp, tm⟩, j, t0, e, tr⟩)).get_running_time now
        = "N/A" ∧
      (Wrapper.mk (some ⟨⟨true, sp, tm⟩, j, t0, e, tr⟩)).get_running_time now
        ≠ "N/A" ∧
      (Wrapper.mk (some ⟨⟨true, sp, tm⟩, j, t0, e, tr⟩)).get_running_time (t0 + d)
        = Wrapper.fill2 (toString (d / 3600000000000)) ++ ":"
            ++ Wrapper.fill2 (toString (d / 60000000000 % 60)) ++ ":"
            ++ Wrapper.fill2 (toString (d / 1000000000 % 60)) ++ "." ∧
      d / 60000000000 % 60 ≤ 59 ∧ d / 1000000000 % 60 ≤ 59 ∧
      3600 * (d / 3600000000000) + 60 * (d / 60000000000 % 60)
          + d / 1000000000 % 60 = d / 1000000000 ∧
      (d < 360000000000000 →
        (Wrapper.mk (some ⟨⟨true, sp, tm⟩, j, t0, e, tr⟩)).get_running_time (t0 + d)
          = String.mk
              [Nat.digitChar (d / 3600000000000 / 10),
               Nat.digitChar (d / 3600000000000 % 10), ':',
               Nat.digitChar (d / 60000000000 % 60 / 10),
               Nat.digitChar (d / 60000000000 % 60 % 10), ':',
               Nat.digitChar (d / 1000000000 % 60 / 10),
               Nat.digitChar (d / 1000000000 % 60 % 10), '.']) := by
  have hfmt : (Wrapper.mk (some ⟨⟨true, sp, tm⟩, j, t0, e, tr⟩)).get_running_time
      (t0 + d)
        = Wrapper.fill2 (toString (d / 3600000000000)) ++ ":"
            ++ Wrapper.fill2 (toString (d / 60000000000 % 60)) ++ ":"
            ++ Wrapper.fill2 (toString (d / 1000000000 % 60)) ++ "." := by
    have hret : t0 + (d : Int) - t0 = (d : Int) := by ring
    have hh : (d : Int).tdiv 3600000000000 = ((d / 3600000000000 : Nat) : Int) := rfl
    have hm : ((d : Int).tmod 3600000000000).tdiv 60000000000
        = ((d % 3600000000000 / 60000000000 : Nat) : Int) := rfl
    have hs : ((d : Int).tmod 60000000000).tdiv 1000000000
        = ((d % 60000000000 / 1000000000 : Nat) : Int) := rfl
    have hm2 : d % 3600000000000 / 60000000000 = d / 60000000000 % 60 := by omega
    have hs2 : d % 60000000000 / 1000000000 = d / 1000000000 % 60 := by omega
    have hstr : ∀ n : Nat, toString (n : Int) = toString n := fun _ => rfl
    simp only [Wrapper.get_running_time, Manager.is_started, State.is_started,
      Manager.get_running_time, if_true, hret, hh, hm, hs, hm2, hs2, hstr]
  refine ⟨rfl, rfl, ?_, hfmt, by omega, by omega, by omega, ?_⟩
  · simp only [Wrapper.get_running_time, Manager.is_started, State.is_started,
      if_true]
    exact Wrapper.append_stop_ne _
  · intro hd
    rw [hfmt, Wrapper.fill2_two_digits _ (by omega),
      Wrapper.fill2_two_digits _ (by omega), Wrapper.fill2_two_digits _ (by omega)]
    rfl

/-- C17: for every document that is an object and every key `k` it holds with
value `v`, the two loops of the constructor return an object in which `k`
still has the value `v` when `v` is not an object; when `v` is an object,
`k` has an object value whose fields `jvm`, `jinstance`, `jclazz`, `jmid`
and `jniversion` are the handles and whose every other field is as in
`v`. -/
theorem Manager.preprocess_injects (h : Handles) (kvs : List (String × Json))
    (k : String) (v : Json) (hk : Json.lookup k kvs = some v) :
    ∃ kvs1, Manager.preprocess h (.obj kvs) = .ok (.obj kvs1) ∧
      (v.is_object = false → Json.lookup k kvs1 = some v) ∧
      (∀ fields, v = .obj fields →
        ∃ fields1, Json.lookup k kvs1 = some (.obj fields1) ∧
          Json.lookup "jvm" fields1 = some (.num h.java_vm_ptr) ∧
          Json.lookup "jinstance" fields1 = some (.num h.java_instance_ptr) ∧
          Json.lookup "jclazz" fields1 = some (.num h.java_class_ptr) ∧
          Json.lookup "jmid" fields1 = some (.num h.java_method_id_ptr) ∧
          Json.lookup "jniversion" fields1 = some (.num h.jni_version) ∧
          ∀ f, f ∉ ["jvm", "jinstance", "jclazz", "jmid", "jniversion"] →
            Json.lookup f fields1 = Json.lookup f fields) := by
  obtain ⟨kvs1, hp, hl⟩ := Manager.preprocess_lookup h kvs k v hk
  refine ⟨kvs1, hp, ?_, ?_⟩
  · intro hv
    rw [hl, Manager.add_handles_of_not_object h v hv]
  · intro fields hf
    subst hf
    obtain ⟨fields1, ha, hrest⟩ := Manager.add_handles_fields h fields
    exact ⟨fields1, by rw [hl, ha], hrest⟩

/-- C17 (witness): the document `{"mod_a": {"x": 1}, "mod_b":
"ignored_scalar"}` and its key `mod_a`; the whole result is spelled out. -/
theorem Manager.preprocess_injects_witness :
    Json.lookup "mod_a" exampleDocument = some (.obj [("x", .num 1)]) ∧
      Manager.preprocess someHandles (.obj exampleDocument)
        = .ok (.obj
            [("mod_a", .obj [("x", .num 1), ("jvm", .num 1), ("jinstance", .num 2),
                ("jclazz", .num 3), ("jmid", .num 4), ("jniversion", .num 65542)]),
             ("mod_b", .str "ignored_scalar"),
             ("process_android", .obj [("jvm", .num 1), ("jinstance", .num 2),
                ("jclazz", .num 3), ("jmid", .num 4), ("jniversion", .num 65542)])]) ∧
      ∃ kvs1, Manager.preprocess someHandles (.obj exampleDocument) = .ok (.obj kvs1) ∧
        ((Json.obj [("x", .num 1)]).is_object = false →
          Json.lookup "mod_a" kvs1 = some (.obj [("x", .num 1)])) ∧
        (∀ fields, Json.obj [("x", .num 1)] = .obj fields →
          ∃ fields1, Json.lookup "mod_a" kvs1 = some (.obj fields1) ∧
            Json.lookup "jvm" fields1 = some (.num someHandles.java_vm_ptr) ∧
            Json.lookup "jinstance" fields1 = some (.num someHandles.java_instance_ptr) ∧
            Json.lookup "jclazz" fields1 = some (.num someHandles.java_class_ptr) ∧
            Json.lookup "jmid" fields1 = some (.num someHandles.java_method_id_ptr) ∧
            Json.lookup "jniversion" fields1 = some (.num someHandles.jni_version) ∧
            ∀ f, f ∉ ["jvm", "jinstance", "jclazz", "jmid", "jniversion"] →
              Json.lookup f fields1 = Json.lookup f fields) :=
  ⟨rfl, rfl, Manager.preprocess_injects someHandles exampleDocument "mod_a" _ rfl⟩

/-- C18: for every document that is an object without the key
`"process_android"`, the two loops of the constructor return an object in
which `"process_android"` is the object of exactly the five handle fields,
and whose keys are the keys of the document followed by
`"process_android"`. -/
theorem Manager.preprocess_synthetic (h : Handles) (kvs : List (String × Json))
    (hk : Json.lookup "process_android" kvs = none) :
    ∃ kvs1, Manager.preprocess h (.obj kvs) = .ok (.obj kvs1) ∧
      Json.lookup "process_android" kvs1
        = some (.obj
            [("jvm", .num h.java_vm_ptr), ("jinstance", .num h.java_instance_ptr),
             ("jclazz", .num h.java_class_ptr), ("jmid", .num h.java_method_id_ptr),
             ("jniversion", .num h.jni_version)]) ∧
      kvs1.map Prod.fst = kvs.map Prod.fst ++ ["process_android"] := by
  refine ⟨_, Manager.preprocess_obj h kvs, ?_⟩
  have hm := Json.lookup_map "process_android" (Manager.add_handles h) kvs
  rw [hk] at hm
  have ha := Json.assign_of_lookup_none "process_android"
      (.obj (Manager.handle_fields h)) _ hm
  have hl := Json.lookup_assign "process_android" "process_android"
      (.obj (Manager.handle_fields h))
      (kvs.map fun kv => (kv.1, Manager.add_handles h kv.2))
  rw [ha] at hl
  simp only [hk, Option.isSome_none, Bool.false_eq_true, if_false]
  refine ⟨?_, ?_⟩
  · rw [hl]; simp [Manager.handle_fields]
  · simp [Function.comp_def]

/-- C18 (witness): the default document `{}`. -/
theorem Manager.preprocess_synthetic_witness :
    Json.lookup "process_android" [] = none ∧
      Manager.preprocess someHandles (.obj [])
        = .ok (.obj [("process_android", .obj [("jvm", .num 1), ("jinstance", .num 2),
                ("jclazz", .num 3), ("jmid", .num 4), ("jniversion", .num 65542)])]) ∧
      ∃ kvs1, Manager.preprocess someHandles (.obj []) = .ok (.obj kvs1) ∧
        Json.lookup "process_android" kvs1
          = some (.obj
              [("jvm", .num someHandles.java_vm_ptr),
               ("jinstance", .num someHandles.java_instance_ptr),
               ("jclazz", .num someHandles.java_class_ptr),
               ("jmid", .num someHandles.java_method_id_ptr),
               ("jniversion", .num someHandles.jni_version)]) ∧
        kvs1.map Prod.fst = ([] : List (String × Json)).map Prod.fst ++ ["process_android"] :=
  ⟨rfl, rfl, Manager.preprocess_synthetic someHandles [] rfl⟩

/-- C19 (the code departs from the claim): a document whose key
`"process_android"` has a string value, or the value `null`, leaves the two
loops of the constructor as it came: the entry is not an object and has
none of the handle fields. -/
theorem Manager.preprocess_keeps_scalar :
    Manager.preprocess someHandles (.obj [("process_android", .str "x")])
        = .ok (.obj [("process_android", .str "x")]) ∧
      Manager.preprocess someHandles (.obj [("process_android", .null)])
        = .ok (.obj [("process_android", .null)]) :=
  ⟨rfl, rfl⟩

/-- C20: when the constructor does not throw, the links made are exactly
`(I, I + 1)` for `I = 1, ..., N - 1`, where `N` is `sizeof...(Components)`:
there are `N - 1` of them, every endpoint is between `1` and `N`, no link
is made twice, every adjacent pair from `1` on is linked, and for `N = 1`
there is none. -/
theorem Manager.create_links (env : Environment) (g : State) (json_string : String)
    (h : Handles) (hc : (Manager.new env g json_string h).2 = none) :
    (Manager.new env g json_string h).1.links
        = (List.range' 1 (env.sizeof_Components - 1)).map (fun I => (I, I + 1)) ∧
      (Manager.new env g json_string h).1.links.length = env.sizeof_Components - 1 ∧
      (∀ p ∈ (Manager.new env g json_string h).1.links,
        1 ≤ p.1 ∧ p.2 = p.1 + 1 ∧ p.2 ≤ env.sizeof_Components) ∧
      (Manager.new env g json_string h).1.links.Nodup ∧
      (∀ I, 1 ≤ I → I + 1 ≤ env.sizeof_Components →
        (I, I + 1) ∈ (Manager.new env g json_string h).1.links) ∧
      (env.sizeof_Components = 1 → (Manager.new env g json_string h).1.links = []) := by
  have hl : (Manager.new env g json_string h).1.links
      = (List.range' 1 (env.sizeof_Components - 1)).map (fun I => (I, I + 1)) := by
    unfold Manager.links
    rw [Manager.new_ops env g json_string h hc]
    simp only [List.filterMap_append, Op.link_construct, Op.link_spawn,
      Op.link_connect, List.filterMap_cons, List.filterMap_nil, Op.link,
      List.nil_append, List.append_nil]
  have hnd : ((List.range' 1 (env.sizeof_Components - 1)).map
      (fun I => (I, I + 1))).Nodup := by
    apply List.Nodup.map
    · intro a b hab
      simpa using congrArg Prod.fst hab
    · exact List.nodup_range' 1 _
  rw [hl]
  refine ⟨rfl, by simp, ?_, hnd, ?_, ?_⟩
  · intro p hp
    simp only [List.mem_map, List.mem_range'_1] at hp
    obtain ⟨I, ⟨h1, h2⟩, rfl⟩ := hp
    refine ⟨h1, rfl, ?_⟩
    show I + 1 ≤ env.sizeof_Components
    omega
  · intro I h1 h2
    simp only [List.mem_map, List.mem_range'_1]
    exact ⟨I, ⟨h1, by omega⟩, rfl⟩
  · intro h1
    simp [h1]

/-- C20 (witness): the quiet environment with its three components has the
links `(1, 2)` and `(2, 3)`. -/
theorem Manager.create_links_witness :
    (Manager.new quietEnvironment (State.ofPhase .Idle) "{}" someHandles).2 = none ∧
      (Manager.new quietEnvironment (State.ofPhase .Idle) "{}" someHandles).1.links
        = [(1, 2), (2, 3)] ∧
      (Manager.new quietEnvironment (State.ofPhase .Idle) "{}" someHandles).1.links
        = (List.range' 1 (quietEnvironment.sizeof_Components - 1)).map
            (fun I => (I, I + 1)) :=
  ⟨rfl, rfl,
    (Manager.create_links quietEnvironment (State.ofPhase .Idle) "{}" someHandles
      rfl).1⟩

/-- C21: a run of `Manager::create` that does not throw appends to the trace,
in this order: the settings configuration, the initialisation of the state
handlers, the construction of the components `0, 1, ..., N` in increasing
order, the connections `(I, I + 1)` for `I = 1, ..., N - 1`, and the spawns
of the components `1, ..., N`.  The workers added to the executor are those
of the indices `1, ..., N`, each once, which are `N` indices and leave out
index `0`. -/
theorem Manager.create_sequence (env : Environment) (m : Manager) (config : Json)
    (h : (Manager.create env m config).2 = none) :
    (Manager.create env m config).1.trace.map Step.op
        = m.trace.map Step.op ++ [Op.configure, Op.init_global_state_handlers]
            ++ (List.range (env.sizeof_Components + 1)).map Op.construct
            ++ (List.range' 1 (env.sizeof_Components - 1)).map
                (fun I => Op.connect I (I + 1))
            ++ (List.range' 1 env.sizeof_Components).map Op.spawn ∧
      (Manager.create env m config).1.executor_.threads
        = m.executor_.threads ++ List.range' 1 env.sizeof_Components ∧
      (List.range' 1 env.sizeof_Components).Nodup ∧
      (List.range' 1 env.sizeof_Components).length = env.sizeof_Components ∧
      (∀ I, I ∈ List.range' 1 env.sizeof_Components ↔ 1 ≤ I ∧ I ≤ env.sizeof_Components) ∧
      (∀ I, I ∈ List.range (env.sizeof_Components + 1) ↔ I ≤ env.sizeof_Components) := by
  refine ⟨Manager.create_ops env m config h, Manager.create_executor env m config h,
    List.nodup_range' 1 _, by simp, ?_, ?_⟩
  · intro I
    simp only [List.mem_range'_1]
    omega
  · intro I
    simp only [List.mem_range]
    omega

/-- C22: for every index `I` of the component tuple, when the settings
configuration throws or the constructor of component `I` throws,
`Manager::create` throws, the executor is as before (nothing was spawned),
the links are as before (nothing was connected), and the calls appended to
the trace are only the configuration, the initialisation of the state
handlers and constructions of components below `I`. -/
theorem Manager.create_failure (env : Environment) (m : Manager) (config : Json)
    (I : Nat) (hI : I ≤ env.sizeof_Components)
    (hf : env.configure config ≠ none ∨ env.construct I config ≠ none) :
    (Manager.create env m config).2 ≠ none ∧
      (Manager.create env m config).1.executor_ = m.executor_ ∧
      (Manager.create env m config).1.links = m.links ∧
      ∃ pre : List Op,
        (Manager.create env m config).1.trace.map Step.op = m.trace.map Step.op ++ pre ∧
        ∀ op ∈ pre, op = Op.configure ∨ op = Op.init_global_state_handlers ∨
          ∃ J, J < I ∧ op = Op.construct J := by
  unfold Manager.create
  cases hc : env.configure config with
  | some e =>
    simp only []
    refine ⟨by simp, ?_, ?_, [], ?_, ?_⟩ <;> simp
  | none =>
    simp only []
    have hfI : env.construct I config ≠ none := by
      rcases hf with h1 | h1
      · exact absurd hc h1
      · exact h1
    have hfail := Manager.construct_components_fails env config I hfI
      (List.range (env.sizeof_Components + 1))
      ((m.log .configure).log .init_global_state_handlers)
      (by simp only [List.mem_range]; omega)
    have hex := Manager.construct_components_executor env config
      (List.range (env.sizeof_Components + 1))
      ((m.log .configure).log .init_global_state_handlers)
    obtain ⟨built, hb, hlt⟩ := Manager.construct_components_built env config
      (env.sizeof_Components + 1) 0
      ((m.log .configure).log .init_global_state_handlers)
    rw [← List.range_eq_range'] at hb
    rcases hr : Manager.construct_components env config
      (List.range (env.sizeof_Components + 1))
      ((m.log .configure).log .init_global_state_handlers) with ⟨m1, _ | e⟩
    · rw [hr] at hfail
      exact absurd rfl hfail
    · rw [hr] at hex hb
      simp only [] at hex hb ⊢
      refine ⟨by simp, hex, ?_, ?_⟩
      · unfold Manager.links
        rw [hb]
        simp [Manager.log_ops, List.filterMap_append, Op.link_construct, Op.link]
      · refine ⟨[Op.configure, Op.init_global_state_handlers] ++ built.map Op.construct,
          ?_, ?_⟩
        · rw [hb]; simp [Manager.log_ops]
        · intro op hop
          simp only [List.mem_append, List.mem_cons, List.mem_singleton, List.mem_map,
            List.not_mem_nil, or_false] at hop
          rcases hop with (h1 | h1) | ⟨J, hJ, rfl⟩
          · exact Or.inl h1
          · exact Or.inr (Or.inl h1)
          · exact Or.inr (Or.inr ⟨J, hlt J hJ I (Nat.zero_le _) hfI, rfl⟩)

/-- C21 (witness): the quiet environment with its three components, on a
fresh manager. -/
theorem Manager.create_sequence_witness :
    (Manager.create quietEnvironment freshManager (.obj [])).2 = none ∧
      (Manager.create quietEnvironment freshManager (.obj [])).1.trace.map Step.op
        = [Op.configure, Op.init_global_state_handlers, Op.construct 0, Op.construct 1,
           Op.construct 2, Op.construct 3, Op.connect 1 2, Op.connect 2 3, Op.spawn 1,
           Op.spawn 2, Op.spawn 3] ∧
      (Manager.create quietEnvironment freshManager (.obj [])).1.executor_.threads
        = [1, 2, 3] :=
  ⟨rfl, (Manager.create_sequence quietEnvironment freshManager (.obj []) rfl).1,
    (Manager.create_sequence quietEnvironment freshManager (.obj []) rfl).2.1⟩

/-- C22 (witness): the environment whose component `2` throws; the trace ends
after the construction of the components `0` and `1`, and the constructor of
the manager throws. -/
theorem Manager.create_failure_witness :
    (2 ≤ throwingEnvironment.sizeof_Components ∧
      (throwingEnvironment.configure (.obj []) ≠ none ∨
        throwingEnvironment.construct 2 (.obj []) ≠ none)) ∧
      (Manager.create throwingEnvironment freshManager (.obj [])).1.trace.map Step.op
        = [Op.configure, Op.init_global_state_handlers, Op.construct 0, Op.construct 1] ∧
      (Manager.new throwingEnvironment (State.ofPhase .Idle) "{}" someHandles).2
        = some Exception.other ∧
      (Manager.create throwingEnvironment freshManager (.obj [])).2 ≠ none ∧
      (Manager.create throwingEnvironment freshManager (.obj [])).1.executor_
        = freshManager.executor_ ∧
      (Manager.create throwingEnvironment freshManager (.obj [])).1.links
        = freshManager.links :=
  ⟨⟨by decide, Or.inr (by decide)⟩, rfl, rfl,
    (Manager.create_failure throwingEnvironment freshManager (.obj []) 2 (by decide)
      (Or.inr (by decide))).1,
    (Manager.create_failure throwingEnvironment freshManager (.obj []) 2 (by decide)
      (Or.inr (by decide))).2.1,
    (Manager.create_failure throwingEnvironment freshManager (.obj []) 2 (by decide)
      (Or.inr (by decide))).2.2.1⟩

/-- C23: the destructor of a manager is `terminate()`: for every manager the
two give the same object, with the state reset to idle and no worker left to
join; on a started manager the destructor appends the two flushes, the stop
of the state, its termination, the join of the executor and the reset, in
this order. -/
theorem Manager.destructor_terminate (m : Manager) (j : Json) (t : Int)
    (e : ThreadExecutor) (tr : List Step) :
    m.destructor = m.terminate ∧
      m.destructor.state_ = State.ofPhase .Idle ∧
      m.destructor.executor_.threads = [] ∧
      (Manager.mk (State.ofPhase .Started) j t e tr).destructor.trace
        = tr ++
          [⟨Op.flush_all, State.ofPhase .Started⟩, ⟨Op.flush_all, State.ofPhase .Started⟩,
           ⟨Op.state_stop, State.ofPhase .Stopped⟩,
           ⟨Op.state_terminate, State.ofPhase .Terminated⟩,
           ⟨Op.executor_join, State.ofPhase .Terminated⟩,
           ⟨Op.state_reset, State.ofPhase .Idle⟩] := by
  refine ⟨rfl, Manager.terminate_state m, ?_, ?_⟩
  · show m.terminate.executor_.threads = []
    rw [m.terminate_fields.2.1]
  · simp [Manager.destructor, Manager.terminate, Manager.stop, Manager.flush_all,
      Manager.state_start, Manager.state_stop, Manager.state_terminate,
      Manager.state_reset, Manager.executor_join, Manager.is_started,
      State.is_started, State.stop, State.terminate, State.reset,
      State.phase, State.ofPhase]

/-- C26: the calls `terminate()` issues on the global state and the executor
are `[start, stop, terminate, join, reset]` on an idle manager and
`[stop, terminate, join, reset]` on a started one; for every manager the
trace of `terminate()` is the trace of a `stop()` call (after the flush of
`terminate()` itself) followed by terminate, join and reset, and the calls
of that `stop()` are the ones of its branches. -/
theorem Manager.terminate_routes_through_stop (m : Manager) (j : Json) (t : Int)
    (e : ThreadExecutor) (tr : List Step) (sp tm : Bool) :
    Manager.issued (Manager.mk ⟨false, false, false⟩ j t e tr)
        (Manager.mk ⟨false, false, false⟩ j t e tr).terminate
        = [Op.state_start, Op.state_stop, Op.state_terminate, Op.executor_join,
           Op.state_reset] ∧
      Manager.issued (Manager.mk ⟨true, sp, tm⟩ j t e tr)
        (Manager.mk ⟨true, sp, tm⟩ j t e tr).terminate
        = [Op.state_stop, Op.state_terminate, Op.executor_join, Op.state_reset] ∧
      (∃ s1 s2 s3, m.terminate.trace
        = m.flush_all.stop.trace ++
            [⟨Op.state_terminate, s1⟩, ⟨Op.executor_join, s2⟩, ⟨Op.state_reset, s3⟩]) ∧
      m.flush_all.stop.trace.map Step.op
        = m.trace.map Step.op ++
            ([Op.flush_all, Op.flush_all] ++
              if m.is_started then [Op.state_stop]
              else if !m.is_stopped || !m.is_terminated then
                [Op.state_start, Op.state_stop]
              else []) := by
  refine ⟨?_, ?_, ⟨_, _, _, by simp [Manager.terminate, Manager.state_terminate,
    Manager.executor_join, Manager.state_reset]; exact ⟨rfl, rfl, rfl⟩⟩, ?_⟩
  · simp [Manager.issued, Manager.terminate, Manager.stop, Manager.flush_all,
      Manager.state_start, Manager.state_stop, Manager.state_terminate,
      Manager.state_reset, Manager.executor_join, Manager.is_started,
      Manager.is_stopped, Manager.is_terminated, State.is_started, State.is_stopped,
      State.is_terminated, Op.on_state_or_executor]
  · simp [Manager.issued, Manager.terminate, Manager.stop, Manager.flush_all,
      Manager.state_start, Manager.state_stop, Manager.state_terminate,
      Manager.state_reset, Manager.executor_join, Manager.is_started,
      Manager.is_stopped, Manager.is_terminated, State.is_started, State.is_stopped,
      State.is_terminated, Op.on_state_or_executor]
  · have h := m.flush_all.stop_ops
    rw [h]
    simp [Manager.flush_all, Manager.is_started, Manager.is_stopped,
      Manager.is_terminated]

/-- C27: for every document that is an object and every handles, the two loops
of the constructor return an object on which the two loops, run again with
the same handles, return that same object. -/
theorem Manager.preprocess_idempotent (h : Handles) (kvs : List (String × Json)) :
    ∃ kvs1, Manager.preprocess h (.obj kvs) = .ok (.obj kvs1) ∧
      Manager.preprocess h (.obj kvs1) = .ok (.obj kvs1) := by
  have hsyn : Manager.add_handles h (.obj (Manager.handle_fields h))
      = .obj (Manager.handle_fields h) := by
    have e : Json.obj (Manager.handle_fields h) = Manager.add_handles h (.obj []) := by
      simp [Manager.add_handles, Manager.handle_fields, Json.assign]
    rw [e, Manager.add_handles_idempotent]
  have hmap : ∀ l : List (String × Json),
      (l.map fun kv => (kv.1, Manager.add_handles h kv.2)).map
          (fun kv => (kv.1, Manager.add_handles h kv.2))
        = l.map fun kv => (kv.1, Manager.add_handles h kv.2) := by
    intro l
    simp [Manager.add_handles_idempotent]
  have hl := Json.lookup_map "process_android" (Manager.add_handles h) kvs
  refine ⟨_, Manager.preprocess_obj h kvs, ?_⟩
  rw [Manager.preprocess_obj]
  cases hp : Json.lookup "process_android" kvs with
  | some v =>
    rw [hp] at hl
    simp only [Option.isSome_some, if_true, hl, Option.map_some', hmap]
  | none =>
    rw [hp] at hl
    have hl2 := Json.lookup_append_of_none "process_android"
      [("process_android", Json.obj (Manager.handle_fields h))] _ hl
    simp only [Option.isSome_none, Bool.false_eq_true, if_false, hl2, Json.lookup,
      if_true, Option.isSome_some, List.map_append, hmap, List.map_cons, List.map_nil,
      hsyn]

namespace thermalsc_ui

/-- C24 (counterexample): with no manager object and a null path, or a null
uuid, `createManagerObject` does not return a boolean: a
`std::logic_error` leaves the function. -/
theorem createManagerObject_throws_on_null :
    (createManagerObject quietCollaborators ⟨State.ofPhase .Idle, none⟩ none (some "u")).2
        = .error .std_exception ∧
      (createManagerObject quietCollaborators ⟨State.ofPhase .Idle, none⟩ (some "/data")
          none).2 = .error .std_exception :=
  ⟨rfl, rfl⟩

/-- C24 (amended): what `createManagerObject` returns or throws in every case.
When a manager object exists it returns false.  Otherwise, with a null path
or a null uuid a `std::logic_error` leaves the function; with both strings,
it returns false when the construction of the manager throws a
`spdlog::spdlog_ex`, any other exception of the construction leaves the
function, and when the construction does not throw it returns true and the
manager object exists.  The process is changed only in the last case. -/
theorem createManagerObject_spec (c : Collaborators)
    (m : Manager) (path uuid : String) (j : Option String) (g : State) :
    createManagerObject c ⟨g, some m⟩ j (some uuid) = (⟨g, some m⟩, .ok false) ∧
      createManagerObject c ⟨g, some m⟩ (some path) j = (⟨g, some m⟩, .ok false) ∧
      createManagerObject c ⟨g, none⟩ none j = (⟨g, none⟩, .error .std_exception) ∧
      createManagerObject c ⟨g, none⟩ j none = (⟨g, none⟩, .error .std_exception) ∧
      createManagerObject c ⟨g, none⟩ (some path) (some uuid)
        = (match c.Manager_throws path uuid with
          | some .spdlog_ex => (⟨g, none⟩, .ok false)
          | some e => (⟨g, none⟩, .error e)
          | none => (⟨g, some (Manager.new path uuid)⟩, .ok true)) := by
  refine ⟨rfl, rfl, rfl, ?_, ?_⟩
  · cases j <;> rfl
  · cases h : c.Manager_throws path uuid with
    | none => simp [createManagerObject, h]
    | some e => cases e <;> simp [createManagerObject, h]

/-- C25 (the code departs from the claim): the legacy constructor stores as
`rotating_logs_size` the value of `1024*1024*1024*10` in `int` arithmetic
with wrap-around, which is `-2147483648` (the residue `2^31` modulo `2^32`)
and not `10737418240`; the product of the first three factors still fits,
the last multiplication overflows. -/
theorem rotating_logs_size_overflows (path uuid : String) :
    (Manager.new path uuid).rotating_logs_size = -2147483648 ∧
      (Manager.new path uuid).rotating_logs_size % 4294967296 = 2147483648 ∧
      (Manager.new path uuid).rotating_logs_size ≠ 10737418240 ∧
      (1024 * 1024 * 1024 * 10 : Int) = 10737418240 ∧
      int_mul (int_mul 1024 1024) 1024 = 1073741824 := by
  refine ⟨?_, ?_, ?_, by norm_num, ?_⟩ <;>
    simp [Manager.new, int_mul, wrap_int]

/-- C28: after every sequence of legacy JNI calls that starts without a
manager object, a manager that exists and is started is initialised.  When
a `stopManagerObject` then returns true, the manager exists with both flags
false, and after every further sequence of calls in which no
`initManagerObject` returns true, `startManagerObject` returns false. -/
theorem started_implies_initialised (c : Collaborators) (g : State)
    (calls calls2 : List JniCall) (now : Int) :
    invariant (run c ⟨g, none⟩ calls) = true ∧
      (returned_true (stopManagerObject (run c ⟨g, none⟩ calls)).2 = true →
        (∃ m, (stopManagerObject (run c ⟨g, none⟩ calls)).1.gManagerObject = some m ∧
          m.isStarted = false ∧ m.isInitialised = false) ∧
        (no_init_success c (stopManagerObject (run c ⟨g, none⟩ calls)).1 calls2 = true →
          (startManagerObject
            (run c (stopManagerObject (run c ⟨g, none⟩ calls)).1 calls2) now).2
            = .ok false)) := by
  refine ⟨run_invariant c calls _ rfl, ?_⟩
  intro hs
  obtain ⟨m, hm, h1, h2⟩ := stopManagerObject_true _ hs
  refine ⟨⟨m, hm, h1, h2⟩, ?_⟩
  intro hn
  have hni : not_initialised (stopManagerObject (run c ⟨g, none⟩ calls)).1 = true := by
    simp [not_initialised, hm, h2]
  rw [startManagerObject_not_initialised _ now (run_not_initialised c calls2 _ hni hn)]

/-- C28 (witness): create, init, start, then a `stopManagerObject` that
returns true, followed by a start and a reset; the next
`startManagerObject` returns false. -/
theorem started_implies_initialised_witness :
    returned_true (stopManagerObject (run quietCollaborators ⟨State.ofPhase .Idle, none⟩
        [.createManagerObject (some "/data") (some "u"), .initManagerObject,
         .startManagerObject 5])).2 = true ∧
      no_init_success quietCollaborators
        (stopManagerObject (run quietCollaborators ⟨State.ofPhase .Idle, none⟩
          [.createManagerObject (some "/data") (some "u"), .initManagerObject,
           .startManagerObject 5])).1
        [.startManagerObject 6, .resetManagerObject "/data" "v"] = true ∧
      (startManagerObject
        (run quietCollaborators
          (stopManagerObject (run quietCollaborators ⟨State.ofPhase .Idle, none⟩
            [.createManagerObject (some "/data") (some "u"), .initManagerObject,
             .startManagerObject 5])).1
          [.startManagerObject 6, .resetManagerObject "/data" "v"]) 7).2 = .ok false :=
  ⟨rfl, rfl,
    ((started_implies_initialised quietCollaborators (State.ofPhase .Idle)
      [.createManagerObject (some "/data") (some "u"), .initManagerObject,
       .startManagerObject 5]
      [.startManagerObject 6, .resetManagerObject "/data" "v"] 7).2 rfl).2 rfl⟩

end thermalsc_ui

end exot
